import Mathlib

/-!
Verification development for the Personal-Budget-Tracker repository.

The tabular core of the application (`utils.py`) is embedded shallowly:

* a persisted table is a `List` of typed rows; every mutating operation of the
  record store takes the loaded table and returns the table it persists
  (the load → mutate → `to_csv` cycle of the code);
* pandas floating-point cells are modelled as exact decimals (`ℚ`,
  resp. canonical decimal pairs in the CSV model); the special values
  produced by division (`inf`, `nan`) are modelled explicitly by `FVal`;
* missing values (`NaN` cells of an object column) are modelled by `Option`;
* operations that raise (`df.drop` on a missing label) return `Option`.
-/

/-- A calendar date, as produced by `pd.to_datetime` on a date string. -/
structure Date where
  year : Nat
  month : Nat
  day : Nat
deriving DecidableEq, Repr

/-- The year-month pair of a date: the value of `strftime("%Y-%m")`. -/
def Date.ym (d : Date) : Nat × Nat := (d.year, d.month)

/-- `datetime` comparison (date-column `>=`/`<=` masks): lexicographic on
(year, month, day). -/
def Date.le (a b : Date) : Bool :=
  (a.year < b.year) ||
  (a.year == b.year && a.month < b.month) ||
  (a.year == b.year && a.month == b.month && a.day ≤ b.day)

/-- One row of `data/transactions.csv` as loaded: columns
`date, type, category, amount, description, tags`.  A `tags` cell that is
missing (`NaN` after `read_csv` of an empty field) is `none`. -/
structure Tx where
  date : Date
  ttype : String
  category : String
  amount : ℚ
  description : String
  tags : Option String
deriving DecidableEq, Repr

/-- One row of `data/budgets.csv`: columns `category, monthly_limit`. -/
structure BudgetRow where
  category : String
  monthly_limit : ℚ
deriving DecidableEq, Repr

/-- One row of `data/goals.csv`. -/
structure GoalRow where
  goal_type : String
  name : String
  target_amount : ℚ
  current_amount : ℚ
  deadline : Date
  status : String
  milestones : String
deriving DecidableEq, Repr

/-- One row of `data/portfolio.csv`. -/
structure InvestmentRow where
  investment_type : String
  name : String
  amount : ℚ
  purchase_date : Date
  current_value : ℚ
deriving DecidableEq, Repr

/-- `save_transaction`: `pd.concat([df, new_transaction], ignore_index=True)`
appends the new row at the end and persists. -/
def save_transaction (df : List Tx) (t : Tx) : List Tx := df ++ [t]

/-- `edit_transaction`: the six `df.loc[index, col] = v` assignments.
`DataFrame.loc` on a `RangeIndex 0..n-1` overwrites row `index` when
`index < n` and otherwise *enlarges* the frame with a new row labelled
`index`, which `to_csv(index=False)`/`read_csv` persist as an appended row. -/
def edit_transaction (index : Nat) (t : Tx) (df : List Tx) : List Tx :=
  if index < df.length then df.set index t else df ++ [t]

/-- `delete_transaction`: `df.drop(index).reset_index(drop=True)`.
`drop` raises `KeyError` when the label is absent (modelled as `none`);
otherwise the row is removed and `reset_index` re-densifies the labels. -/
def delete_transaction (index : Nat) (df : List Tx) : Option (List Tx) :=
  if index < df.length then some (df.eraseIdx index) else none

/-- `update_goal`: same `df.loc` pattern as `edit_transaction`. -/
def update_goal (index : Nat) (g : GoalRow) (df : List GoalRow) : List GoalRow :=
  if index < df.length then df.set index g else df ++ [g]

/-- `update_investment`: same `df.loc` pattern as `edit_transaction`. -/
def update_investment (index : Nat) (iv : InvestmentRow) (df : List InvestmentRow) :
    List InvestmentRow :=
  if index < df.length then df.set index iv else df ++ [iv]

/-- `load_budgets`: when no `data/budgets.csv` exists, an **empty** frame with
columns `category, monthly_limit` is written and read back; otherwise the
persisted table is returned.  The backing store is modelled as
`Option (List BudgetRow)` (`none` = no file yet). -/
def load_budgets (store : Option (List BudgetRow)) : List BudgetRow :=
  match store with
  | none => []
  | some df => df

/-- `save_budget`: `df.loc[mask, column] = v` with `mask = (category column == category)`:
assigns through a boolean mask — every row whose `category` equals the key
gets the new limit, all other rows are untouched, and no row is created
when the mask matches nothing. -/
def save_budget (df : List BudgetRow) (category : String) (monthly_limit : ℚ) :
    List BudgetRow :=
  df.map (fun r =>
    if r.category == category then { r with monthly_limit := monthly_limit } else r)

/-- The closed category list of the UI (`main.py`). -/
def categories : List String :=
  ["Food & Dining", "Transportation", "Housing", "Utilities", "Entertainment",
   "Shopping", "Healthcare", "Education", "Salary", "Investment", "Other"]

/-- The whitespace set of Python `str.strip()`. -/
def isPySpace (c : Char) : Bool :=
  c = ' ' || c = '\t' || c = '\n' || c = '\r' || c = '\x0b' || c = '\x0c'

/-- Python `str.strip()`: drop leading and trailing whitespace. -/
def pyStrip (s : String) : String :=
  (((s.toList.dropWhile isPySpace).reverse.dropWhile isPySpace).reverse).asString

/-- Python `split(",")` on the character list: cut at every comma; the empty
string yields one empty piece. -/
def splitCommaCL : List Char → List (List Char)
  | [] => [[]]
  | c :: cs =>
    let r := splitCommaCL cs
    if c = ',' then [] :: r
    else
      match r with
      | [] => [[c]]
      | g :: gs => (c :: g) :: gs

/-- Python `s.split(",")`. -/
def pySplitComma (s : String) : List String :=
  (splitCommaCL s.toList).map List.asString

/-- Python truthiness of an optional string argument (`if search_term:`):
`None` and the empty string are falsy. -/
def truthy (o : Option String) : Bool :=
  match o with
  | none => false
  | some s => s ≠ ""

/-- Python `\w` on ASCII: letters, digits and underscore. -/
def isWordChar (c : Char) : Bool := c.isAlphanum || c = '_'

/-- One member of a regex character class: a literal character, a range, or
one of the shorthand classes `\d \D \w \W \s \S`. -/
inductive CItem where
  | single (c : Char)
  | range (a b : Char)
  | dclass
  | ndclass
  | wclass
  | nwclass
  | sclass
  | nsclass
deriving DecidableEq, Repr

/-- The compiled regular-expression fragment of the Python `re` module used
by `Series.str.contains`: literals and classes, the dot, the anchors,
concatenation, alternation and Kleene star (`+`, `?` and brace repetitions
are desugared into these at compile time; greedy and lazy quantifiers agree
on the boolean question `re.search` answers). -/
inductive Regex where
  | fail
  | eps
  | bos
  | eos
  | anyc
  | cls (neg : Bool) (items : List CItem)
  | cat (r1 r2 : Regex)
  | alt (r1 r2 : Regex)
  | star (r : Regex)
deriving DecidableEq, Repr

/-- Does one class item match a character?  `ci` is `re.IGNORECASE`
(approximated by ASCII case folding of the code point, as for `case=False`
matching of the source). -/
def cmatch (ci : Bool) (x : Char) : CItem → Bool
  | .single c => if ci then x.toLower == c.toLower else x == c
  | .range a b =>
    if ci then
      (decide (a ≤ x) && decide (x ≤ b)) ||
        (decide (a ≤ x.toLower) && decide (x.toLower ≤ b)) ||
        (decide (a ≤ x.toUpper) && decide (x.toUpper ≤ b))
    else decide (a ≤ x) && decide (x ≤ b)
  | .dclass => x.isDigit
  | .ndclass => !x.isDigit
  | .wclass => isWordChar x
  | .nwclass => !isWordChar x
  | .sclass => isPySpace x
  | .nsclass => !isPySpace x

/-- Character-class membership, with negation. -/
def clsMatch (ci : Bool) (neg : Bool) (items : List CItem) (x : Char) : Bool :=
  if neg then !(items.any (cmatch ci x)) else items.any (cmatch ci x)

/-- Can the regex match the empty string here?  `atStart`/`atEnd` say whether
the current position is the start/end of the subject, which is what the
zero-width anchors `^` and `$` test (multiline off; the before-final-newline
case of `$` is outside the model). -/
def nullable (atStart atEnd : Bool) : Regex → Bool
  | .fail => false
  | .eps => true
  | .bos => atStart
  | .eos => atEnd
  | .anyc => false
  | .cls _ _ => false
  | .cat r1 r2 => nullable atStart atEnd r1 && nullable atStart atEnd r2
  | .alt r1 r2 => nullable atStart atEnd r1 || nullable atStart atEnd r2
  | .star _ => true

/-- Brzozowski derivative: the residual regex after consuming one character.  The dot
matches every character except the newline (no `re.DOTALL`). -/
def rderiv (ci : Bool) (atStart : Bool) (c : Char) : Regex → Regex
  | .fail => .fail
  | .eps => .fail
  | .bos => .fail
  | .eos => .fail
  | .anyc => if c = '\n' then .fail else .eps
  | .cls neg items => if clsMatch ci neg items c then .eps else .fail
  | .cat r1 r2 =>
    .alt (.cat (rderiv ci atStart c r1) r2)
      (if nullable atStart false r1 then rderiv ci atStart c r2 else .fail)
  | .alt r1 r2 => .alt (rderiv ci atStart c r1) (rderiv ci atStart c r2)
  | .star r => .cat (rderiv ci atStart c r) (.star r)

/-- Does the regex match some prefix of `cs`?  `cs` always runs to the end of
the subject, so a match ending at the current position ends at the end of
the subject exactly when `cs` is empty. -/
def mexists (ci : Bool) (r : Regex) (atStart : Bool) : List Char → Bool
  | [] => nullable atStart true r
  | c :: cs =>
    nullable atStart false r || mexists ci (rderiv ci atStart c r) false cs

/-- `re.search` scans every start position for a match. -/
def reSearchAux (ci : Bool) (r : Regex) (atStart : Bool) : List Char → Bool
  | [] => mexists ci r atStart []
  | c :: cs => mexists ci r atStart (c :: cs) || reSearchAux ci r false cs

/-- `pattern.search(subject)` as a boolean, the question `str.contains`
asks. -/
def reSearch (ci : Bool) (r : Regex) (s : String) : Bool :=
  reSearchAux ci r true s.toList

/-- Hexadecimal digit value. -/
def hexVal (c : Char) : Option Nat :=
  if c.isDigit then some (c.toNat - 48)
  else if 'a' ≤ c ∧ c ≤ 'f' then some (c.toNat - 87)
  else if 'A' ≤ c ∧ c ≤ 'F' then some (c.toNat - 55)
  else none

/-- A regex escape outside a character class: shorthand classes, the
`\A`/`\Z` anchors, control-character escapes, `\xhh`, and escaped
punctuation; every other escape (backreferences, `\b`, unicode escapes,
unknown letters) is a compile error, as `re.error` or as the boundary of
the modelled fragment. -/
def parseEscape : List Char → Option (Regex × List Char)
  | [] => none
  | c :: rest =>
    if c = 'd' then some (.cls false [.dclass], rest)
    else if c = 'D' then some (.cls false [.ndclass], rest)
    else if c = 'w' then some (.cls false [.wclass], rest)
    else if c = 'W' then some (.cls false [.nwclass], rest)
    else if c = 's' then some (.cls false [.sclass], rest)
    else if c = 'S' then some (.cls false [.nsclass], rest)
    else if c = 'A' then some (.bos, rest)
    else if c = 'Z' then some (.eos, rest)
    else if c = 'n' then some (.cls false [.single '\n'], rest)
    else if c = 't' then some (.cls false [.single '\t'], rest)
    else if c = 'r' then some (.cls false [.single '\r'], rest)
    else if c = 'f' then some (.cls false [.single '\x0c'], rest)
    else if c = 'v' then some (.cls false [.single '\x0b'], rest)
    else if c = 'a' then some (.cls false [.single '\x07'], rest)
    else if c = 'x' then
      match rest with
      | h1 :: h2 :: rest2 =>
        match hexVal h1, hexVal h2 with
        | some v1, some v2 => some (.cls false [.single (Char.ofNat (16 * v1 + v2))], rest2)
        | _, _ => none
      | _ => none
    else if c.isAlphanum then none
    else some (.cls false [.single c], rest)

/-- One escape inside a character class (no anchors there). -/
def parseClsEscape : List Char → Option (CItem × List Char)
  | [] => none
  | c :: rest =>
    if c = 'd' then some (.dclass, rest)
    else if c = 'D' then some (.ndclass, rest)
    else if c = 'w' then some (.wclass, rest)
    else if c = 'W' then some (.nwclass, rest)
    else if c = 's' then some (.sclass, rest)
    else if c = 'S' then some (.nsclass, rest)
    else if c = 'n' then some (.single '\n', rest)
    else if c = 't' then some (.single '\t', rest)
    else if c = 'r' then some (.single '\r', rest)
    else if c = 'f' then some (.single '\x0c', rest)
    else if c = 'v' then some (.single '\x0b', rest)
    else if c = 'a' then some (.single '\x07', rest)
    else if c = 'x' then
      match rest with
      | h1 :: h2 :: rest2 =>
        match hexVal h1, hexVal h2 with
        | some v1, some v2 => some (.single (Char.ofNat (16 * v1 + v2)), rest2)
        | _, _ => none
      | _ => none
    else if c.isAlphanum then none
    else some (.single c, rest)

/-- One item of a character class body (the caller strips `^` and closes on
`]`). -/
def parseClsItem : List Char → Option (CItem × List Char)
  | [] => none
  | '\\' :: rest => parseClsEscape rest
  | c :: rest => some (.single c, rest)

/-- Character-class body: items and ranges up to the closing bracket; a `]`
in first position is literal, an unterminated class or a reversed range is
a compile error, and a range whose endpoint is a shorthand class is left
outside the fragment (an error here, a deprecation in recent Python). -/
def parseClsBody (fuel : Nat) (neg : Bool) (first : Bool) (acc : List CItem)
    (cs : List Char) : Option (Regex × List Char) :=
  match fuel with
  | 0 => none
  | fuel + 1 =>
    match cs with
    | [] => none
    | ']' :: rest =>
      if first then parseClsBody fuel neg false (.single ']' :: acc) rest
      else some (.cls neg acc.reverse, rest)
    | _ =>
      match parseClsItem cs with
      | none => none
      | some (it, rest1) =>
        match rest1 with
        | '-' :: ']' :: rest2 =>
          some (.cls neg ((CItem.single '-' :: it :: acc).reverse), rest2)
        | '-' :: rest2 =>
          match it, parseClsItem rest2 with
          | .single a, some (.single b, rest3) =>
            if decide (a ≤ b) then
              parseClsBody fuel neg false (.range a b :: acc) rest3
            else none
          | _, _ => none
        | _ => parseClsBody fuel neg false (it :: acc) rest1

/-- Character to decimal digit value. -/
def digitVal (c : Char) : Nat := c.toNat - 48

/-- Read a digit string (most significant first). -/
def parseNatDigits (cs : List Char) : Nat :=
  cs.foldl (fun a c => a * 10 + digitVal c) 0

/-- Read a decimal number from the head of the stream. -/
def parseDigits (cs : List Char) : Option (Nat × List Char) :=
  let ds := cs.takeWhile Char.isDigit
  if ds.isEmpty then none
  else some (parseNatDigits ds, cs.dropWhile Char.isDigit)

/-- A brace repetition after an atom: the forms m, m-comma, m-comma-n inside
braces; any other brace content is not a repetition (the brace stays a
literal, as in Python). -/
def parseBrace (cs : List Char) : Option ((Nat × Option Nat) × List Char) :=
  match parseDigits cs with
  | none => none
  | some (m, rest) =>
    match rest with
    | '}' :: rest2 => some ((m, some m), rest2)
    | ',' :: '}' :: rest2 => some ((m, none), rest2)
    | ',' :: rest2 =>
      match parseDigits rest2 with
      | none => none
      | some (n, rest3) =>
        match rest3 with
        | '}' :: rest4 => some ((m, some n), rest4)
        | _ => none
    | _ => none

/-- Desugar a brace repetition into concatenation, option and star. -/
def repRegex (r : Regex) (m : Nat) (n : Option Nat) : Regex :=
  let base := (List.replicate m r).foldr Regex.cat Regex.eps
  match n with
  | none => Regex.cat base (Regex.star r)
  | some nv =>
    Regex.cat base ((List.replicate (nv - m) (Regex.alt Regex.eps r)).foldr
      Regex.cat Regex.eps)

/-- Does a quantifier begin here? -/
def isQuantStart (cs : List Char) : Bool :=
  match cs with
  | '*' :: _ => true
  | '+' :: _ => true
  | '?' :: _ => true
  | '{' :: rest => (parseBrace rest).isSome
  | _ => false

/-- After one quantifier: consume an optional lazy marker; a second
quantifier is the `multiple repeat` error (possessive quantifiers of
Python 3.11 are outside the modelled fragment). -/
def afterQuant (r : Regex) (cs : List Char) : Option (Regex × List Char) :=
  let cs2 := match cs with
    | '?' :: rest => rest
    | _ => cs
  if isQuantStart cs2 then none else some (r, cs2)

/-- Apply at most one postfix quantifier to a parsed atom; `none` is a
compile error (reversed brace bounds, stacked quantifiers). -/
def applyQuant (r : Regex) (cs : List Char) : Option (Regex × List Char) :=
  match cs with
  | '*' :: rest => afterQuant (Regex.star r) rest
  | '+' :: rest => afterQuant (Regex.cat r (Regex.star r)) rest
  | '?' :: rest => afterQuant (Regex.alt Regex.eps r) rest
  | '{' :: rest =>
    match parseBrace rest with
    | some ((m, n), rest2) =>
      match n with
      | none => afterQuant (repRegex r m none) rest2
      | some nv =>
        if m ≤ nv then afterQuant (repRegex r m (some nv)) rest2
        else none
    | none => some (r, cs)
  | _ => some (r, cs)

mutual

def parseAlt (fuel : Nat) (cs : List Char) : Option (Regex × List Char) :=
  match fuel with
  | 0 => none
  | fuel + 1 =>
    match parseSeq fuel cs with
    | none => none
    | some (r1, rest) =>
      match rest with
      | '|' :: rest2 =>
        match parseAlt fuel rest2 with
        | none => none
        | some (r2, rest3) => some (Regex.alt r1 r2, rest3)
      | _ => some (r1, rest)

def parseSeq (fuel : Nat) (cs : List Char) : Option (Regex × List Char) :=
  match fuel with
  | 0 => none
  | fuel + 1 =>
    match cs with
    | [] => some (Regex.eps, [])
    | ')' :: _ => some (Regex.eps, cs)
    | '|' :: _ => some (Regex.eps, cs)
    | _ =>
      match parseQuant fuel cs with
      | none => none
      | some (r1, rest) =>
        match parseSeq fuel rest with
        | none => none
        | some (r2, rest2) => some (Regex.cat r1 r2, rest2)

def parseQuant (fuel : Nat) (cs : List Char) : Option (Regex × List Char) :=
  match fuel with
  | 0 => none
  | fuel + 1 =>
    match parseAtom fuel cs with
    | none => none
    | some (r, rest) => applyQuant r rest

def parseAtom (fuel : Nat) (cs : List Char) : Option (Regex × List Char) :=
  match fuel with
  | 0 => none
  | fuel + 1 =>
    match cs with
    | [] => none
    | '(' :: '?' :: ':' :: rest =>
      match parseAlt fuel rest with
      | some (r, ')' :: rest2) => some (r, rest2)
      | _ => none
    | '(' :: '?' :: _ => none
    | '(' :: rest =>
      match parseAlt fuel rest with
      | some (r, ')' :: rest2) => some (r, rest2)
      | _ => none
    | ')' :: _ => none
    | '*' :: _ => none
    | '+' :: _ => none
    | '?' :: _ => none
    | '^' :: rest => some (Regex.bos, rest)
    | '$' :: rest => some (Regex.eos, rest)
    | '.' :: rest => some (Regex.anyc, rest)
    | '[' :: '^' :: rest => parseClsBody fuel true true [] rest
    | '[' :: rest => parseClsBody fuel false true [] rest
    | '\\' :: rest => parseEscape rest
    | c :: rest => some (Regex.cls false [CItem.single c], rest)

end

/-- `re.compile(pattern)`: `none` is `re.error`. -/
def reCompile (pattern : String) : Option Regex :=
  match parseAlt (4 * pattern.length + 8) pattern.toList with
  | some (r, []) => some r
  | _ => none

/-- `Series.str.contains(pat, case=False, na=False)` on one cell: the pandas
default `regex=True` interprets the term as a regular expression, compiled
with `re.IGNORECASE` for `case=False`, and `re.search` asks whether it
matches anywhere in the cell. -/
def str_contains (r : Regex) (s : String) : Bool := reSearch true r s

/-- `search_transactions`: one boolean mask per supplied criterion, combined
with `&=`, then `df[mask]` keeps the matching rows in order.  String
criteria are guarded by Python truthiness, the amount bounds by
`is not None`.  The search text and the tag filter go through
`Series.str.contains` with its default `regex=True`: an invalid pattern
raises `re.error` when the mask is built (modelled as `none`), and
`na=False` makes a missing `tags` cell fail every contains test. -/
def search_transactions (df : List Tx) (search_term : String)
    (start_date : Option Date) (end_date : Option Date)
    (transaction_type : Option String) (category : Option String)
    (min_amount : Option ℚ) (max_amount : Option ℚ)
    (tags : Option String) : Option (List Tx) :=
  let srx : Option (Option Regex) :=
    if search_term ≠ "" then (reCompile search_term).map some else some none
  let trx : Option (Option Regex) :=
    if truthy tags then (reCompile (tags.getD "")).map some else some none
  match srx, trx with
  | some osr, some otr =>
    some (df.filter (fun t =>
      (match osr with
       | none => true
       | some r =>
         str_contains r t.description ||
           (match t.tags with
            | none => false
            | some tg => str_contains r tg)) &&
      (match start_date with
       | none => true
       | some sd => Date.le sd t.date) &&
      (match end_date with
       | none => true
       | some ed => Date.le t.date ed) &&
      (if truthy transaction_type then t.ttype == transaction_type.getD "" else true) &&
      (if truthy category then t.category == category.getD "" else true) &&
      (match min_amount with
       | none => true
       | some mn => mn ≤ t.amount) &&
      (match max_amount with
       | none => true
       | some mx => t.amount ≤ mx) &&
      (match otr with
       | none => true
       | some r =>
         match t.tags with
         | none => false
         | some tg => str_contains r tg)))
  | _, _ => none

/-- Lexicographic order on strings by code point, the order of `sorted` in Python. -/
def leStr (a b : String) : Bool :=
  go a.toList b.toList
where
  go : List Char → List Char → Bool
  | [], _ => true
  | _ :: _, [] => false
  | a :: as, b :: bs =>
    if a.toNat < b.toNat then true
    else if b.toNat < a.toNat then false
    else go as bs

/-- `get_all_tags`: walk the tags column after `dropna()`, split each cell on
a comma, `strip` each piece, collect into a `set`, return the sorted list. -/
def get_all_tags (df : List Tx) : List String :=
  (((df.filterMap (fun t => t.tags)).flatMap
      (fun s => (pySplitComma s).map pyStrip)).dedup).mergeSort leStr

/-- `get_monthly_summary`: restrict to the rows whose `strftime("%Y-%m")`
equals the current month (passed here as the `current_month` pair), sum the
`Income` amounts, sum the `Expense` amounts, return
`(income, expenses, income - expenses)`. -/
def get_monthly_summary (df : List Tx) (current_month : Nat × Nat) : ℚ × ℚ × ℚ :=
  let month_data := df.filter (fun t => t.date.ym == current_month)
  let income := ((month_data.filter (fun t => t.ttype == "Income")).map
    (fun t => t.amount)).sum
  let expenses := ((month_data.filter (fun t => t.ttype == "Expense")).map
    (fun t => t.amount)).sum
  (income, expenses, income - expenses)

/-- An IEEE-754 double as stored in the budget-status columns, idealized to
exact decimals for the finite case but keeping the special values that
pandas arithmetic produces: `x/0 = ±inf` for `x ≠ 0` and `0/0 = nan`. -/
inductive FVal where
  | fin (q : ℚ)
  | pinf
  | ninf
  | nan
deriving DecidableEq, Repr

/-- IEEE division as performed by `Series.div` on the cases that occur here. -/
def FVal.div : FVal → FVal → FVal
  | .fin a, .fin b =>
    if b ≠ 0 then .fin (a / b)
    else if 0 < a then .pinf
    else if a < 0 then .ninf
    else .nan
  | .nan, _ => .nan
  | _, .nan => .nan
  | .pinf, .fin b => if 0 ≤ b then .pinf else .ninf
  | .ninf, .fin b => if 0 ≤ b then .ninf else .pinf
  | .fin _, .pinf => .fin 0
  | .fin _, .ninf => .fin 0
  | .pinf, .pinf => .nan
  | .pinf, .ninf => .nan
  | .ninf, .pinf => .nan
  | .ninf, .ninf => .nan

/-- IEEE multiplication on the same case split. -/
def FVal.mul : FVal → FVal → FVal
  | .fin a, .fin b => .fin (a * b)
  | .nan, _ => .nan
  | _, .nan => .nan
  | .pinf, .fin b => if 0 < b then .pinf else if b < 0 then .ninf else .nan
  | .ninf, .fin b => if 0 < b then .ninf else if b < 0 then .pinf else .nan
  | .fin a, .pinf => if 0 < a then .pinf else if a < 0 then .ninf else .nan
  | .fin a, .ninf => if 0 < a then .ninf else if a < 0 then .pinf else .nan
  | .pinf, .pinf => .pinf
  | .pinf, .ninf => .ninf
  | .ninf, .pinf => .ninf
  | .ninf, .ninf => .pinf

/-- `Series.fillna(0)`: replace `nan`, keep everything else (infinities are
*not* missing values and are kept). -/
def FVal.fillna0 : FVal → FVal
  | .nan => .fin 0
  | x => x

/-- IEEE `>` against a finite constant: `inf > c` holds, `nan > c` does not. -/
def FVal.gtc : FVal → ℚ → Bool
  | .fin a, c => c < a
  | .pinf, _ => true
  | .ninf, _ => false
  | .nan, _ => false

/-- One output row of `get_budget_status`: columns
`category, monthly_limit, amount, percentage, status`. -/
structure BudgetStatusRow where
  category : String
  monthly_limit : ℚ
  amount : ℚ
  percentage : FVal
  status : String
deriving DecidableEq, Repr

/-- The `groupby` amount sum table over the expense rows of the reference
month: one `(category, total)` pair per category present. -/
def actual_spending (df : List Tx) (current_month : Nat × Nat) :
    List (String × ℚ) :=
  let month_expenses := df.filter
    (fun t => t.date.ym == current_month && t.ttype == "Expense")
  ((month_expenses.map (fun t => t.category)).dedup).map
    (fun c =>
      (c, ((month_expenses.filter (fun t => t.category == c)).map
        (fun t => t.amount)).sum))

/-- `get_budget_status`: left-merge the budgets table with the grouped
spending on `category` (a budget category absent from the spending table
gets `NaN`, then `fillna(0)`), compute
`percentage = (amount / monthly_limit * 100).fillna(0)` in float semantics,
and derive the status tier from `percentage` row-wise. -/
def get_budget_status (df : List Tx) (budgets : List BudgetRow)
    (current_month : Nat × Nat) : List BudgetStatusRow :=
  budgets.map (fun b =>
    let amount := ((actual_spending df current_month).lookup b.category).getD 0
    let percentage :=
      (((FVal.fin amount).div (FVal.fin b.monthly_limit)).mul
        (FVal.fin 100)).fillna0
    { category := b.category
      monthly_limit := b.monthly_limit
      amount := amount
      percentage := percentage
      status :=
        if percentage.gtc 100 then "Over Budget"
        else if percentage.gtc 80 then "Warning"
        else "Good" })

/-- The specification-level spend: the sum of the `Expense` amounts of the
given category in the reference month, `0` when there is none. -/
def actualSpend (df : List Tx) (current_month : Nat × Nat) (c : String) : ℚ :=
  ((df.filter (fun t =>
    t.date.ym == current_month && t.ttype == "Expense" && t.category == c)).map
      (fun t => t.amount)).sum

/-- Decimal digit to character. -/
def digitChar (d : Nat) : Char := Char.ofNat (48 + d)

/-- Decimal rendering of a natural number (`str(n)`). -/
def printNat (n : Nat) : List Char :=
  if n = 0 then ['0'] else ((Nat.digits 10 n).map digitChar).reverse

/-- Decimal rendering of an integer (`str(z)`). -/
def printInt (z : Int) : List Char :=
  if z < 0 then '-' :: printNat z.natAbs else printNat z.natAbs

/-- Strip one leading sign character; return whether it was a minus. -/
def splitSign (cs : List Char) : Bool × List Char :=
  match cs with
  | [] => (false, [])
  | c :: r => if c = '-' then (true, r) else if c = '+' then (false, r) else (false, c :: r)

/-- Integer literal: optional sign then one or more digits (the integer
grammar of the `read_csv` type sniffer). -/
def isIntLit (cs : List Char) : Bool :=
  let b := (splitSign cs).2
  !b.isEmpty && b.all Char.isDigit

/-- Integer value of an integer literal. -/
def intValOf (cs : List Char) : Int :=
  let p := splitSign cs
  if p.1 then -(parseNatDigits p.2 : Int) else (parseNatDigits p.2 : Int)

/-- Plain decimal float literal: optional sign, digits, a dot, digits, at
least one digit overall.  (Exponent and infinity spellings are outside the
modelled grammar.) -/
def isFloatLit (cs : List Char) : Bool :=
  let b := (splitSign cs).2
  let ip := b.takeWhile (fun c => c ≠ '.')
  match b.dropWhile (fun c => c ≠ '.') with
  | '.' :: fp => ip.all Char.isDigit && fp.all Char.isDigit &&
      (!ip.isEmpty || !fp.isEmpty)
  | _ => false

/-- Mantissa/scale reading of a float literal: `d.f` denotes
`(±(d·10^|f| + f), |f|)`, i.e. the exact decimal `m / 10^e`. -/
def floatValOf (cs : List Char) : Int × Nat :=
  let p := splitSign cs
  let ip := p.2.takeWhile (fun c => c ≠ '.')
  let fp := (p.2.dropWhile (fun c => c ≠ '.')).tail
  let m : Int := (parseNatDigits ip : Int) * 10 ^ fp.length + (parseNatDigits fp : Int)
  ((if p.1 then -m else m), fp.length)

/-- Canonical form of an exact decimal `m / 10^e` as a float value prints it:
scale at least one fractional digit, no trailing zero beyond scale one. -/
def canonF : Int → Nat → Int × Nat
  | m, 0 => (m * 10, 1)
  | m, 1 => (m, 1)
  | m, e + 2 => if m % 10 = 0 then canonF (m / 10) (e + 1) else (m, e + 2)

/-- Decimal rendering of the canonical float `m / 10^e` (`repr` of the
float): integer part, a dot, exactly `e` fractional digits. -/
def printFloat (m : Int) (e : Nat) : List Char :=
  let a := m.natAbs
  let fd := printNat (a % 10 ^ e)
  (if m < 0 then ['-'] else []) ++ printNat (a / 10 ^ e) ++
    '.' :: (List.replicate (e - fd.length) '0' ++ fd)

/-- The accepted `True` spellings of the `read_csv` bool sniffer. -/
def trueLits : List String := ["True", "TRUE", "true"]

/-- The accepted `False` spellings of the `read_csv` bool sniffer. -/
def falseLits : List String := ["False", "FALSE", "false"]

/-- Bool literal test. -/
def isBoolLit (s : String) : Bool := trueLits.contains s || falseLits.contains s

/-- Bool literal value. -/
def boolValOf (s : String) : Bool := trueLits.contains s

/-- The default missing-value spellings of `read_csv` (`STR_NA_VALUES`). -/
def naStrings : List String :=
  ["", "#N/A", "#N/A N/A", "#NA", "-1.#IND", "-1.#QNAN", "-NaN", "-nan",
   "1.#IND", "1.#QNAN", "<NA>", "N/A", "NA", "NULL", "NaN", "None", "n/a",
   "nan", "null"]

/-- Is this raw field a missing value? -/
def isNaRaw (s : String) : Bool := naStrings.contains s

/-- One cell of a loaded table: missing, an `int64`, a `float64` (exact
canonical decimal `m / 10^e`), a bool, or a string. -/
inductive Cell where
  | na
  | int (z : Int)
  | float (m : Int) (e : Nat)
  | bool (b : Bool)
  | str (s : String)
deriving DecidableEq, Repr

/-- The raw text `to_csv` emits for a cell, before field quoting. -/
def Cell.raw : Cell → String
  | .na => ""
  | .int z => (printInt z).asString
  | .float m e => (printFloat m e).asString
  | .bool b => if b then "True" else "False"
  | .str s => s

/-- `QUOTE_MINIMAL`: a field is quoted iff it contains the delimiter, the
quote character or a line-break character. -/
def needsQuote (s : String) : Bool :=
  s.toList.any (fun c => c == ',' || c == '"' || c == '\n' || c == '\r')

/-- Double every quote character (the CSV escape). -/
def escapeQ : List Char → List Char
  | [] => []
  | c :: cs => if c = '"' then '"' :: '"' :: escapeQ cs else c :: escapeQ cs

/-- Serialize one field with minimal quoting. -/
def printField (s : String) : List Char :=
  if needsQuote s then '"' :: (escapeQ s.toList ++ ['"']) else s.toList

/-- Serialize one record: fields joined by commas. -/
def printRecord : List String → List Char
  | [] => []
  | [f] => printField f
  | f :: fs => printField f ++ ',' :: printRecord fs

/-- Serialize records, one per line, each line ending in a newline. -/
def printCsv (records : List (List String)) : List Char :=
  (records.map (fun r => printRecord r ++ ['\n'])).flatten

/-- A loaded table: column header plus cell rows. -/
structure PTable where
  header : List String
  rows : List (List Cell)
deriving DecidableEq, Repr

/-- `export_to_csv`: `df.to_csv(output, index=False)` — header line then one
comma-delimited record per row, minimal quoting. -/
def export_to_csv (df : PTable) : String :=
  (printCsv (df.header :: df.rows.map (fun r => r.map Cell.raw))).asString

/-- Quote-aware splitting: cut a character stream at every top-level (even
quote parity) occurrence of `sep`; returns the first group and the rest. -/
def splitQA (sep : Char) : List Char → Bool → List Char × List (List Char)
  | [], _ => ([], [])
  | c :: cs, q =>
    if c = '"' then
      let r := splitQA sep cs (!q)
      ('"' :: r.1, r.2)
    else if c = sep ∧ q = false then
      let r := splitQA sep cs q
      ([], r.1 :: r.2)
    else
      let r := splitQA sep cs q
      (c :: r.1, r.2)

/-- All groups of the quote-aware split. -/
def splitTop (sep : Char) (cs : List Char) : List (List Char) :=
  let r := splitQA sep cs false
  r.1 :: r.2

/-- Remove the CSV escaping inside a quoted field body (up to the closing
quote). -/
def unquoteBody : List Char → List Char
  | [] => []
  | c :: cs =>
    if c = '"' then
      match cs with
      | [] => []
      | c2 :: cs2 => if c2 = '"' then '"' :: unquoteBody cs2 else c2 :: cs2
    else c :: unquoteBody cs

/-- Undo field quoting. -/
def unquoteField (cs : List Char) : List Char :=
  match cs with
  | [] => []
  | c :: rest => if c = '"' then unquoteBody rest else c :: rest

/-- Tokenize a CSV text: split into records on top-level newlines, skip blank
lines (`skip_blank_lines`), split each record into fields on top-level
commas, unquote each field. -/
def csvRecords (cs : List Char) : List (List String) :=
  ((splitTop '\n' cs).filter (fun g => g ≠ [])).map
    (fun line => (splitTop ',' line).map (fun f => (unquoteField f).asString))

/-- The dtype `read_csv` sniffs for one column. -/
inductive CType where
  | ints
  | floats
  | bools
  | strs
deriving DecidableEq, Repr

/-- Column dtype inference: all integer literals (and no missing value) →
int64; otherwise all non-missing numeric → float64; otherwise all
non-missing bool literals → bool; otherwise strings. -/
def inferCType (raws : List String) : CType :=
  let nonNa := raws.filter (fun s => isNaRaw s = false)
  if raws ≠ [] ∧ raws.all (fun s => isIntLit s.toList) then .ints
  else if nonNa ≠ [] ∧ nonNa.all (fun s => isIntLit s.toList || isFloatLit s.toList) then
    .floats
  else if nonNa ≠ [] ∧ nonNa.all isBoolLit then .bools
  else .strs

/-- Convert one raw field under a column dtype (an integer literal read into
a float64 column takes the value `z.0`). -/
def mkCell (ty : CType) (s : String) : Cell :=
  if isNaRaw s then .na
  else match ty with
    | .ints => .int (intValOf s.toList)
    | .floats =>
      if isFloatLit s.toList then
        let p := floatValOf s.toList
        let c := canonF p.1 p.2
        .float c.1 c.2
      else .float (intValOf s.toList * 10) 1
    | .bools => .bool (boolValOf s)
    | .strs => .str s

/-- `pd.read_csv` on comma-delimited text with a header row: first record is
the header, remaining records are data rows typed column by column. -/
def read_csv (text : String) : PTable :=
  match csvRecords text.toList with
  | [] => { header := [], rows := [] }
  | header :: rawRows =>
    let types := (List.range header.length).map
      (fun j => inferCType (rawRows.map (fun r => r.getD j "")))
    { header := header
      rows := rawRows.map (fun r => List.zipWith mkCell types r) }

/-- Column `j` of a cell table. -/
def getCol (rows : List (List Cell)) (j : Nat) : List Cell :=
  rows.map (fun r => r.getD j .na)

/-- Is the cell missing? -/
def Cell.isNa : Cell → Bool
  | .na => true
  | _ => false

/-- Is the cell an integer? -/
def Cell.isInt : Cell → Bool
  | .int _ => true
  | _ => false

/-- A float cell in canonical printable form. -/
def validFloatCell : Cell → Bool
  | .float m e => e != 0 && (e == 1 || m % 10 != 0)
  | _ => false

/-- Is the cell a bool? -/
def Cell.isBool : Cell → Bool
  | .bool _ => true
  | _ => false

/-- A string cell whose text is not a missing-value spelling (`read_csv`
would have produced `NaN` for those). -/
def validStrCell : Cell → Bool
  | .str s => !isNaRaw s
  | _ => false

/-- The string cells of a column. -/
def colStrs (col : List Cell) : List String :=
  col.filterMap (fun c => match c with | .str s => some s | _ => none)

/-- A column as `read_csv` can produce it: a no-missing int64 column, a
float64 column, a bool column, or a string column that the numeric and bool
sniffers would not have claimed. -/
def validCol (col : List Cell) : Bool :=
  col.all Cell.isInt ||
  col.all (fun c => c.isNa || validFloatCell c) ||
  col.all (fun c => c.isNa || c.isBool) ||
  (col.all (fun c => c.isNa || validStrCell c) &&
    !((colStrs col).all (fun s => isIntLit s.toList || isFloatLit s.toList)) &&
    !((colStrs col).all isBoolLit))

/-- A table as `load_transactions` can return it: rectangular rows matching
the header width, every column in loadable form. -/
def validTable (df : PTable) : Bool :=
  df.rows.all (fun r => r.length == df.header.length) &&
  (List.range df.header.length).all (fun j => validCol (getCol df.rows j))

/-- The transactions schema header. -/
def transactionsHeader : List String :=
  ["date", "type", "category", "amount", "description", "tags"]

/-- Scan for the splitting proofs: `true` iff the stream has no top-level
`sep` and ends at even quote parity. -/
def scanQ (sep : Char) : List Char → Bool → Bool
  | [], q => !q
  | c :: cs, q =>
    if c = '"' then scanQ sep cs (!q)
    else if c = sep ∧ q = false then false
    else scanQ sep cs q

theorem save_budget_categories (df : List BudgetRow) (cat : String) (lim : ℚ) :
    (save_budget df cat lim).map BudgetRow.category = df.map BudgetRow.category := by
  rw [save_budget, List.map_map]
  apply List.map_congr_left
  intro a _
  simp only [Function.comp_apply]
  split <;> rfl

theorem save_budget_rows (df : List BudgetRow) (cat : String) (lim : ℚ) :
    List.Forall₂ (fun r2 r =>
      (r.category = cat → r2 = ⟨r.category, lim⟩) ∧ (r.category ≠ cat → r2 = r))
      (save_budget df cat lim) df := by
  induction df with
  | nil => exact List.Forall₂.nil
  | cons r t ih =>
    refine List.Forall₂.cons ?_ ih
    constructor
    · intro h
      simp [save_budget, h]
    · intro h
      have hb : (r.category == cat) = false := by
        simpa using h
      simp [save_budget, hb]

theorem save_budget_countP (df : List BudgetRow) (cat : String) (lim : ℚ)
    (c : String) :
    (save_budget df cat lim).countP (fun r => r.category == c) =
      df.countP (fun r => r.category == c) := by
  rw [save_budget, List.countP_map]
  apply List.countP_congr
  intro a _
  simp only [Function.comp]
  split <;> simp

/-- Claim C2 counterexample: on a one-row transactions table, an edit at the
out-of-range index 1 does not fail; it persists a two-row table (the record
appended), so the persisted table is changed. -/
theorem c2_counterexample :
    edit_transaction 1 ⟨⟨2024, 1, 2⟩, "Income", "Salary", 5, "b", none⟩
        [⟨⟨2024, 1, 1⟩, "Expense", "Other", 10, "a", none⟩] =
      [⟨⟨2024, 1, 1⟩, "Expense", "Other", 10, "a", none⟩,
       ⟨⟨2024, 1, 2⟩, "Income", "Salary", 5, "b", none⟩] ∧
    edit_transaction 1 ⟨⟨2024, 1, 2⟩, "Income", "Salary", 5, "b", none⟩
        [⟨⟨2024, 1, 1⟩, "Expense", "Other", 10, "a", none⟩] ≠
      [⟨⟨2024, 1, 1⟩, "Expense", "Other", 10, "a", none⟩] := by
  constructor
  · rfl
  · decide

/-- Claim C2 (amended): for every table and every index at or beyond the row
count, updateByIndex (edit_transaction, update_goal, update_investment) does
not fail: it appends the record as a new row, so the persisted table grows
by one row instead of being left unchanged. -/
theorem c2_theorem :
    (∀ (df : List Tx) (i : Nat) (t : Tx), df.length ≤ i →
      edit_transaction i t df = df ++ [t]) ∧
    (∀ (df : List GoalRow) (i : Nat) (g : GoalRow), df.length ≤ i →
      update_goal i g df = df ++ [g]) ∧
    (∀ (df : List InvestmentRow) (i : Nat) (v : InvestmentRow), df.length ≤ i →
      update_investment i v df = df ++ [v]) := by
  refine ⟨?_, ?_, ?_⟩ <;>
    · intro df i x h
      simp [edit_transaction, update_goal, update_investment, Nat.not_lt.mpr h]

theorem c2_witness :
    ([(⟨⟨2024, 1, 1⟩, "Expense", "Other", 10, "a", none⟩ : Tx)].length ≤ 3) ∧
    edit_transaction 3 ⟨⟨2024, 1, 2⟩, "Income", "Salary", 5, "b", none⟩
        [⟨⟨2024, 1, 1⟩, "Expense", "Other", 10, "a", none⟩] =
      [⟨⟨2024, 1, 1⟩, "Expense", "Other", 10, "a", none⟩] ++
        [⟨⟨2024, 1, 2⟩, "Income", "Salary", 5, "b", none⟩] :=
  ⟨by decide, c2_theorem.1 _ 3 _ (by decide)⟩

/-- Claim C3 counterexample: on a fresh store, load_budgets returns the empty
table, which has zero rows (not one) for the known category Food & Dining. -/
theorem c3_counterexample :
    "Food & Dining" ∈ categories ∧
    (load_budgets none).countP (fun r => r.category == "Food & Dining") = 0 ∧
    (load_budgets none).countP (fun r => r.category == "Food & Dining") ≠ 1 := by
  refine ⟨by decide, rfl, by decide⟩

/-- Claim C3 (amended): load_budgets does not seed one row per category — on a
fresh store it returns the empty table, and otherwise it returns the persisted
table as is.  save_budget does preserve the category column (hence the row
count of every category) and rewrites only the monthly_limit of the rows whose
category equals the targeted key, leaving all other rows unchanged. -/
theorem c3_theorem :
    load_budgets none = [] ∧
    (∀ df : List BudgetRow, load_budgets (some df) = df) ∧
    (∀ (df : List BudgetRow) (cat : String) (lim : ℚ),
      (save_budget df cat lim).map BudgetRow.category = df.map BudgetRow.category) ∧
    (∀ (df : List BudgetRow) (cat c : String) (lim : ℚ),
      (save_budget df cat lim).countP (fun r => r.category == c) =
        df.countP (fun r => r.category == c)) ∧
    (∀ (df : List BudgetRow) (cat : String) (lim : ℚ),
      List.Forall₂ (fun r2 r =>
        (r.category = cat → r2 = ⟨r.category, lim⟩) ∧ (r.category ≠ cat → r2 = r))
        (save_budget df cat lim) df) :=
  ⟨rfl, fun _ => rfl, save_budget_categories,
    fun df cat c lim => save_budget_countP df cat lim c, save_budget_rows⟩

theorem c3_witness :
    (save_budget [⟨"Food & Dining", 0⟩, ⟨"Housing", 7⟩] "Food & Dining" 500).map
        BudgetRow.category =
      [⟨"Food & Dining", (0 : ℚ)⟩, ⟨"Housing", 7⟩].map BudgetRow.category :=
  c3_theorem.2.2.1 [⟨"Food & Dining", 0⟩, ⟨"Housing", 7⟩] "Food & Dining" 500

/-- Claim C6: deleting an in-range index succeeds and persists the table with
that positional row removed: the result is the prefix before the row followed
by the suffix after it (relative order kept, indices re-densified by the list
positions), and its length is one less. -/
theorem c6_theorem (df : List Tx) (i : Nat) (h : i < df.length) :
    delete_transaction i df = some (df.take i ++ df.drop (i + 1)) ∧
    (df.take i ++ df.drop (i + 1)).length = df.length - 1 := by
  constructor
  · simp [delete_transaction, h, List.eraseIdx_eq_take_drop_succ]
  · have := List.length_eraseIdx df i
    rw [List.eraseIdx_eq_take_drop_succ] at this
    simpa [h] using this

theorem c6_witness :
    (1 < ([⟨⟨2024, 1, 1⟩, "Expense", "Other", 10, "a", none⟩,
           ⟨⟨2024, 1, 2⟩, "Income", "Salary", 5, "b", none⟩,
           ⟨⟨2024, 1, 3⟩, "Expense", "Housing", 7, "c", none⟩] : List Tx).length) ∧
    delete_transaction 1
        [⟨⟨2024, 1, 1⟩, "Expense", "Other", 10, "a", none⟩,
         ⟨⟨2024, 1, 2⟩, "Income", "Salary", 5, "b", none⟩,
         ⟨⟨2024, 1, 3⟩, "Expense", "Housing", 7, "c", none⟩] =
      some ([⟨⟨2024, 1, 1⟩, "Expense", "Other", 10, "a", none⟩,
             ⟨⟨2024, 1, 2⟩, "Income", "Salary", 5, "b", none⟩,
             ⟨⟨2024, 1, 3⟩, "Expense", "Housing", 7, "c", none⟩].take 1 ++
            [⟨⟨2024, 1, 1⟩, "Expense", "Other", 10, "a", none⟩,
             ⟨⟨2024, 1, 2⟩, "Income", "Salary", 5, "b", none⟩,
             ⟨⟨2024, 1, 3⟩, "Expense", "Housing", 7, "c", none⟩].drop 2) :=
  ⟨by decide, (c6_theorem _ 1 (by decide)).1⟩

/-- Claim C7 counterexample: the search text goes through
Series.str.contains with its pandas default regex=True, so the pattern "("
is compiled as a regular expression and raises re.error (modelled as none)
instead of returning any subsequence of the table; the same call with an
empty search text does return the full table. -/
theorem c7_counterexample :
    reCompile "(" = none ∧
    search_transactions
        [⟨⟨2024, 1, 1⟩, "Expense", "Housing", 10, "rent", none⟩]
        "(" none none none none none none none = none ∧
    search_transactions
        [⟨⟨2024, 1, 1⟩, "Expense", "Housing", 10, "rent", none⟩]
        "" none none none none none none none =
      some [⟨⟨2024, 1, 1⟩, "Expense", "Housing", 10, "rent", none⟩] := by
  refine ⟨by decide, by decide, by decide⟩

/-- Claim C7 (amended): search_transactions can raise re.error on an invalid
regex pattern (modelled by the none result); with no criteria supplied it
succeeds and returns the table unchanged in order, and whenever it returns a
result that result is a subsequence of the table (matching rows in their
original relative order). -/
theorem c7_theorem :
    (∀ df : List Tx,
      search_transactions df "" none none none none none none none = some df) ∧
    (∀ (df : List Tx) (s : String) (sd ed : Option Date) (ty c : Option String)
        (mn mx : Option ℚ) (tg : Option String) (res : List Tx),
      search_transactions df s sd ed ty c mn mx tg = some res →
        res.Sublist df) := by
  constructor
  · intro df
    simp [search_transactions, truthy]
  · intro df s sd ed ty c mn mx tg res h
    simp only [search_transactions] at h
    cases hs : (if s ≠ "" then (reCompile s).map some else some none) with
    | none => rw [hs] at h; cases h
    | some osr =>
      cases ht : (if truthy tg then (reCompile (tg.getD "")).map some
          else some none) with
      | none => rw [hs, ht] at h; cases h
      | some otr =>
        rw [hs, ht] at h
        cases h
        exact List.filter_sublist df

/-- Claim C7 witness: the regex search text "sal.*y" compiles, matches the
Salary row case-insensitively and not the rent row, and the returned row
list is a subsequence of the table. -/
theorem c7_witness :
    search_transactions
        [⟨⟨2024, 1, 1⟩, "Expense", "Housing", 10, "rent", none⟩,
         ⟨⟨2024, 1, 2⟩, "Income", "Salary", 99, "Salary pay", none⟩]
        "sal.*y" none none none none none none none =
      some [⟨⟨2024, 1, 2⟩, "Income", "Salary", 99, "Salary pay", none⟩] ∧
    List.Sublist
      [(⟨⟨2024, 1, 2⟩, "Income", "Salary", 99, "Salary pay", none⟩ : Tx)]
      [⟨⟨2024, 1, 1⟩, "Expense", "Housing", 10, "rent", none⟩,
       ⟨⟨2024, 1, 2⟩, "Income", "Salary", 99, "Salary pay", none⟩] :=
  ⟨by decide,
   c7_theorem.2
     [⟨⟨2024, 1, 1⟩, "Expense", "Housing", 10, "rent", none⟩,
      ⟨⟨2024, 1, 2⟩, "Income", "Salary", 99, "Salary pay", none⟩]
     "sal.*y" none none none none none none none
     [⟨⟨2024, 1, 2⟩, "Income", "Salary", 99, "Salary pay", none⟩]
     (by decide)⟩

/-- Claim C8: the monthly summary restricts to the rows of the reference
month, sums Income amounts and Expense amounts, and returns
(income, expenses, income - expenses); on the two sample transactions of
March 2024 it returns (5000, 1200, 3800). -/
theorem c8_theorem :
    (∀ (df : List Tx) (cm : Nat × Nat),
      get_monthly_summary df cm =
        (((df.filter (fun t => t.date.ym == cm && t.ttype == "Income")).map
            Tx.amount).sum,
         ((df.filter (fun t => t.date.ym == cm && t.ttype == "Expense")).map
            Tx.amount).sum,
         ((df.filter (fun t => t.date.ym == cm && t.ttype == "Income")).map
            Tx.amount).sum -
           ((df.filter (fun t => t.date.ym == cm && t.ttype == "Expense")).map
              Tx.amount).sum)) ∧
    get_monthly_summary
        [⟨⟨2024, 3, 1⟩, "Income", "Salary", 5000, "pay", none⟩,
         ⟨⟨2024, 3, 15⟩, "Expense", "Food & Dining", 1200, "food", none⟩]
        (2024, 3) =
      (5000, 1200, 3800) := by
  constructor
  · intro df cm
    have hI : (df.filter (fun t => t.date.ym == cm)).filter
        (fun t => t.ttype == "Income") =
        df.filter (fun t => t.date.ym == cm && t.ttype == "Income") := by
      rw [List.filter_filter]
      exact List.filter_congr (fun x _ => Bool.and_comm _ _)
    have hE : (df.filter (fun t => t.date.ym == cm)).filter
        (fun t => t.ttype == "Expense") =
        df.filter (fun t => t.date.ym == cm && t.ttype == "Expense") := by
      rw [List.filter_filter]
      exact List.filter_congr (fun x _ => Bool.and_comm _ _)
    simp only [get_monthly_summary]
    rw [hI, hE]
  · simp +decide [get_monthly_summary, Date.ym]
    norm_num

/-- Claim C10: save_budget with a category key matching no row is a silent
no-op: it neither fails nor creates a row, and persists the table unchanged
(also, unconditionally, the row count never changes). -/
theorem c10_theorem :
    (∀ (df : List BudgetRow) (cat : String) (lim : ℚ),
      (∀ r ∈ df, r.category ≠ cat) → save_budget df cat lim = df) ∧
    (∀ (df : List BudgetRow) (cat : String) (lim : ℚ),
      (save_budget df cat lim).length = df.length) := by
  constructor
  · intro df cat lim h
    rw [save_budget]
    have hp : ∀ r ∈ df,
        (if r.category == cat then
          ({ r with monthly_limit := lim } : BudgetRow) else r) = r := by
      intro r hr
      have hb : (r.category == cat) = false := by simpa using h r hr
      simp [hb]
    rw [List.map_congr_left hp]
    exact List.map_id' df
  · intro df cat lim
    simp [save_budget]

theorem c10_witness :
    (∀ r ∈ [(⟨"Food & Dining", 100⟩ : BudgetRow), ⟨"Housing", 7⟩],
      r.category ≠ "Travel") ∧
    save_budget [⟨"Food & Dining", 100⟩, ⟨"Housing", 7⟩] "Travel" 55 =
      [⟨"Food & Dining", 100⟩, ⟨"Housing", 7⟩] :=
  ⟨by decide, c10_theorem.1 _ "Travel" 55 (by decide)⟩

theorem lookup_map_pair (l : List String) (g : String → ℚ) (c : String) :
    List.lookup c (l.map (fun x => (x, g x))) =
      if c ∈ l then some (g c) else none := by
  induction l with
  | nil => simp [List.lookup]
  | cons x t ih =>
    by_cases hc : c = x
    · subst hc
      simp [List.lookup]
    · have hb : (c == x) = false := by simpa using hc
      simp [List.lookup, hb, hc, ih]

theorem lookup_actual_spending (df : List Tx) (cm : Nat × Nat) (c : String) :
    ((actual_spending df cm).lookup c).getD 0 = actualSpend df cm c := by
  rw [actual_spending, lookup_map_pair]
  by_cases hc :
      c ∈ ((df.filter (fun t => t.date.ym == cm && t.ttype == "Expense")).map
        (fun t => t.category)).dedup
  · rw [if_pos hc, Option.getD_some, actualSpend, List.filter_filter]
    have hf : df.filter
        (fun a => a.category == c && (a.date.ym == cm && a.ttype == "Expense")) =
        df.filter
          (fun t => t.date.ym == cm && t.ttype == "Expense" && t.category == c) := by
      apply List.filter_congr
      intro t _
      rw [Bool.and_comm]
    rw [hf]
  · rw [if_neg hc, Option.getD_none, actualSpend]
    have hnil : df.filter
        (fun t => t.date.ym == cm && t.ttype == "Expense" && t.category == c) =
        [] := by
      rw [List.filter_eq_nil_iff]
      intro t ht hp
      simp only [Bool.and_eq_true, beq_iff_eq] at hp
      apply hc
      rw [List.mem_dedup, List.mem_map]
      refine ⟨t, ?_, hp.2⟩
      rw [List.mem_filter]
      exact ⟨ht, by simp [hp.1.1, hp.1.2]⟩
    rw [hnil]
    simp

theorem get_budget_status_length (df : List Tx) (budgets : List BudgetRow)
    (cm : Nat × Nat) :
    (get_budget_status df budgets cm).length = budgets.length := by
  simp [get_budget_status]

theorem get_budget_status_getElem (df : List Tx) (budgets : List BudgetRow)
    (cm : Nat × Nat) (i : Nat) (hi : i < budgets.length)
    (hrow : i < (get_budget_status df budgets cm).length) :
    (get_budget_status df budgets cm)[i] =
      { category := budgets[i].category
        monthly_limit := budgets[i].monthly_limit
        amount := actualSpend df cm budgets[i].category
        percentage :=
          (((FVal.fin (actualSpend df cm budgets[i].category)).div
            (FVal.fin budgets[i].monthly_limit)).mul (FVal.fin 100)).fillna0
        status :=
          if ((((FVal.fin (actualSpend df cm budgets[i].category)).div
              (FVal.fin budgets[i].monthly_limit)).mul
                (FVal.fin 100)).fillna0).gtc 100 then "Over Budget"
          else if ((((FVal.fin (actualSpend df cm budgets[i].category)).div
              (FVal.fin budgets[i].monthly_limit)).mul
                (FVal.fin 100)).fillna0).gtc 80 then "Warning"
          else "Good" } := by
  simp only [get_budget_status, List.getElem_map, lookup_actual_spending]

/-- Claim C4: get_budget_status returns one row per budget row, whose amount
is the month-and-category Expense sum (0 when nothing matches); when the
limit is nonzero the percentage is spend/limit×100 and the status is the
tier of that percentage; the three reference examples with limit 1000 give
(850, 85.0, Warning), (1200, 120.0, Over Budget) and (0, 0, Good). -/
theorem c4_theorem :
    (∀ (df : List Tx) (budgets : List BudgetRow) (cm : Nat × Nat),
      (get_budget_status df budgets cm).length = budgets.length) ∧
    (∀ (df : List Tx) (budgets : List BudgetRow) (cm : Nat × Nat) (i : Nat)
      (hi : i < budgets.length)
      (hrow : i < (get_budget_status df budgets cm).length),
      ((get_budget_status df budgets cm)[i].category = budgets[i].category ∧
       (get_budget_status df budgets cm)[i].monthly_limit =
         budgets[i].monthly_limit ∧
       (get_budget_status df budgets cm)[i].amount =
         actualSpend df cm budgets[i].category) ∧
      (budgets[i].monthly_limit ≠ 0 →
        (get_budget_status df budgets cm)[i].percentage =
          FVal.fin (actualSpend df cm budgets[i].category /
            budgets[i].monthly_limit * 100) ∧
        (get_budget_status df budgets cm)[i].status =
          (if 100 < actualSpend df cm budgets[i].category /
              budgets[i].monthly_limit * 100 then "Over Budget"
           else if 80 < actualSpend df cm budgets[i].category /
              budgets[i].monthly_limit * 100 then "Warning"
           else "Good"))) ∧
    get_budget_status [⟨⟨2024, 3, 5⟩, "Expense", "Food & Dining", 850, "x", none⟩]
        [⟨"Food & Dining", 1000⟩] (2024, 3) =
      [⟨"Food & Dining", 1000, 850, FVal.fin 85, "Warning"⟩] ∧
    get_budget_status [⟨⟨2024, 3, 5⟩, "Expense", "Food & Dining", 1200, "x", none⟩]
        [⟨"Food & Dining", 1000⟩] (2024, 3) =
      [⟨"Food & Dining", 1000, 1200, FVal.fin 120, "Over Budget"⟩] ∧
    get_budget_status [] [⟨"Food & Dining", 1000⟩] (2024, 3) =
      [⟨"Food & Dining", 1000, 0, FVal.fin 0, "Good"⟩] := by
  refine ⟨get_budget_status_length, ?_, ?_, ?_, ?_⟩
  · intro df budgets cm i hi hrow
    rw [get_budget_status_getElem df budgets cm i hi hrow]
    refine ⟨⟨rfl, rfl, rfl⟩, ?_⟩
    intro hlim
    have hdiv : (FVal.fin (actualSpend df cm budgets[i].category)).div
        (FVal.fin budgets[i].monthly_limit) =
        FVal.fin (actualSpend df cm budgets[i].category /
          budgets[i].monthly_limit) := by
      simp [FVal.div, hlim]
    refine ⟨?_, ?_⟩
    · simp [hdiv, FVal.mul, FVal.fillna0]
    · simp only [hdiv, FVal.mul, FVal.fillna0, FVal.gtc, decide_eq_true_eq]
  all_goals
    norm_num +decide [get_budget_status, actual_spending, actualSpend, Date.ym,
      FVal.div, FVal.mul, FVal.fillna0, FVal.gtc, List.lookup, List.dedup,
      List.pwFilter]

theorem c4_witness :
    ((get_budget_status
        [⟨⟨2024, 3, 5⟩, "Expense", "Food & Dining", 850, "x", none⟩]
        [⟨"Food & Dining", 1000⟩] (2024, 3)).getD 0
          ⟨"", 0, 0, FVal.nan, ""⟩).percentage = FVal.fin 85 ∧
    ((get_budget_status
        [⟨⟨2024, 3, 5⟩, "Expense", "Food & Dining", 850, "x", none⟩]
        [⟨"Food & Dining", 1000⟩] (2024, 3)).getD 0
          ⟨"", 0, 0, FVal.nan, ""⟩).status = "Warning" := by
  have hrow : 0 < (get_budget_status
      [⟨⟨2024, 3, 5⟩, "Expense", "Food & Dining", 850, "x", none⟩]
      [⟨"Food & Dining", 1000⟩] (2024, 3)).length := by
    rw [c4_theorem.1]
    decide
  have hs : actualSpend
      [⟨⟨2024, 3, 5⟩, "Expense", "Food & Dining", 850, "x", none⟩] (2024, 3)
      "Food & Dining" = 850 := by
    norm_num +decide [actualSpend, Date.ym]
  have h := (c4_theorem.2.1
    [⟨⟨2024, 3, 5⟩, "Expense", "Food & Dining", 850, "x", none⟩]
    [⟨"Food & Dining", 1000⟩] (2024, 3) 0 (by decide) hrow).2 (by norm_num)
  simp only [List.getElem_cons_zero] at h
  rw [List.getD_eq_getElem _ _ hrow]
  refine ⟨h.1.trans ?_, h.2.trans ?_⟩
  · simp only [hs]
    norm_num
  · simp only [hs]
    norm_num

/-- Claim C1 counterexample: with a budget row of limit 0 and an Expense of
50 in that category in the reference month, get_budget_status raises no
division error but reports percentage = +inf (status Over Budget), not 0. -/
theorem c1_counterexample :
    get_budget_status [⟨⟨2024, 3, 5⟩, "Expense", "Food & Dining", 50, "x", none⟩]
        [⟨"Food & Dining", 0⟩] (2024, 3) =
      [⟨"Food & Dining", 0, 50, FVal.pinf, "Over Budget"⟩] ∧
    FVal.pinf ≠ FVal.fin 0 := by
  constructor
  · norm_num +decide [get_budget_status, actual_spending, actualSpend, Date.ym,
      FVal.div, FVal.mul, FVal.fillna0, FVal.gtc, List.lookup, List.dedup,
      List.pwFilter]
  · decide

/-- Claim C1 (amended): for a zero-limit category get_budget_status raises no
division error (it is total); the fillna(0) convention yields percentage 0
only when the month spend is itself 0 (float 0/0 is NaN, which fillna
replaces); a positive spend divides to +inf, so the percentage is +inf and
the status Over Budget. -/
theorem c1_theorem (df : List Tx) (budgets : List BudgetRow) (cm : Nat × Nat)
    (i : Nat) (hi : i < budgets.length)
    (hrow : i < (get_budget_status df budgets cm).length)
    (hlim : budgets[i].monthly_limit = 0) :
    (get_budget_status df budgets cm)[i].percentage =
      (if 0 < actualSpend df cm budgets[i].category then FVal.pinf
       else if actualSpend df cm budgets[i].category < 0 then FVal.ninf
       else FVal.fin 0) ∧
    (0 < actualSpend df cm budgets[i].category →
      (get_budget_status df budgets cm)[i].status = "Over Budget") ∧
    (actualSpend df cm budgets[i].category = 0 →
      (get_budget_status df budgets cm)[i].status = "Good") := by
  rw [get_budget_status_getElem df budgets cm i hi hrow]
  rcases lt_trichotomy (0 : ℚ) (actualSpend df cm budgets[i].category) with
    hA | hA | hA
  · have hp : (((FVal.fin (actualSpend df cm budgets[i].category)).div
        (FVal.fin budgets[i].monthly_limit)).mul (FVal.fin 100)).fillna0 =
        FVal.pinf := by
      simp [FVal.div, hlim, hA, FVal.mul, FVal.fillna0]
    refine ⟨?_, ?_, ?_⟩
    · simp [hp, hA]
    · intro _
      simp [hp, FVal.gtc]
    · intro h0
      rw [h0] at hA
      exact absurd hA (lt_irrefl 0)
  · have hp : (((FVal.fin (actualSpend df cm budgets[i].category)).div
        (FVal.fin budgets[i].monthly_limit)).mul (FVal.fin 100)).fillna0 =
        FVal.fin 0 := by
      rw [hlim, ← hA]
      simp [FVal.div, FVal.mul, FVal.fillna0]
    refine ⟨?_, ?_, ?_⟩
    · rw [hp]
      simp [← hA]
    · intro h0
      rw [← hA] at h0
      exact absurd h0 (lt_irrefl 0)
    · intro _
      simp only [hp, FVal.gtc]
      norm_num
  · have hp : (((FVal.fin (actualSpend df cm budgets[i].category)).div
        (FVal.fin budgets[i].monthly_limit)).mul (FVal.fin 100)).fillna0 =
        FVal.ninf := by
      simp [FVal.div, hlim, hA, not_lt_of_gt hA, FVal.mul, FVal.fillna0]
    refine ⟨?_, ?_, ?_⟩
    · simp [hp, hA, not_lt_of_gt hA]
    · intro h0
      exact absurd (lt_trans h0 hA) (lt_irrefl 0)
    · intro h0
      rw [h0] at hA
      exact absurd hA (lt_irrefl 0)

theorem c1_witness :
    ((get_budget_status
        [⟨⟨2024, 3, 5⟩, "Expense", "Food & Dining", 50, "x", none⟩]
        [⟨"Food & Dining", 0⟩] (2024, 3)).getD 0
          ⟨"", 0, 0, FVal.nan, ""⟩).status = "Over Budget" := by
  have hrow : 0 < (get_budget_status
      [⟨⟨2024, 3, 5⟩, "Expense", "Food & Dining", 50, "x", none⟩]
      [⟨"Food & Dining", 0⟩] (2024, 3)).length := by
    rw [get_budget_status_length]
    decide
  have hs : actualSpend
      [⟨⟨2024, 3, 5⟩, "Expense", "Food & Dining", 50, "x", none⟩] (2024, 3)
      (([(⟨"Food & Dining", 0⟩ : BudgetRow)])[0].category) = 50 := by
    norm_num +decide [actualSpend, Date.ym]
  have h := (c1_theorem
    [⟨⟨2024, 3, 5⟩, "Expense", "Food & Dining", 50, "x", none⟩]
    [⟨"Food & Dining", 0⟩] (2024, 3) 0 (by decide) hrow (by norm_num)).2.1
    (by rw [hs]; norm_num)
  rw [List.getD_eq_getElem _ _ hrow]
  exact h



theorem leStr_go_total : ∀ as bs : List Char,
    leStr.go as bs = true ∨ leStr.go bs as = true := by
  intro as
  induction as with
  | nil =>
    intro bs
    left
    simp [leStr.go]
  | cons a as ih =>
    intro bs
    cases bs with
    | nil =>
      right
      simp [leStr.go]
    | cons b bs =>
      rcases Nat.lt_trichotomy a.toNat b.toNat with h | h | h
      · left
        simp [leStr.go, h]
      · rcases ih bs with hg | hg
        · left
          simp [leStr.go, h, hg]
        · right
          simp [leStr.go, h, hg]
      · right
        simp [leStr.go, h]

theorem leStr_go_trans : ∀ as bs cs : List Char,
    leStr.go as bs = true → leStr.go bs cs = true → leStr.go as cs = true := by
  intro as
  induction as with
  | nil =>
    intro bs cs _ _
    simp [leStr.go]
  | cons a as ih =>
    intro bs cs h1 h2
    cases bs with
    | nil => simp [leStr.go] at h1
    | cons b bs =>
      cases cs with
      | nil => simp [leStr.go] at h2
      | cons c cs =>
        simp only [leStr.go] at h1 h2 ⊢
        rcases Nat.lt_trichotomy a.toNat b.toNat with hab | hab | hab <;>
          rcases Nat.lt_trichotomy b.toNat c.toNat with hbc | hbc | hbc
        · simp [Nat.lt_trans hab hbc]
        · simp [hbc ▸ hab]
        · simp [hbc, Nat.lt_asymm hbc] at h2
        · simp [hab ▸ hbc]
        · have hac : a.toNat = c.toNat := hab.trans hbc
          simp only [hab, lt_irrefl, if_false] at h1
          simp only [hbc, lt_irrefl, if_false] at h2
          simp only [hac, lt_irrefl, if_false]
          exact ih bs cs (by simpa using h1) (by simpa using h2)
        · simp [hbc, Nat.lt_asymm hbc] at h2
        · simp [hab, Nat.lt_asymm hab] at h1
        · simp [hab, Nat.lt_asymm hab] at h1
        · simp [hab, Nat.lt_asymm hab] at h1

theorem leStr_go_antisymm : ∀ as bs : List Char,
    leStr.go as bs = true → leStr.go bs as = true → as = bs := by
  intro as
  induction as with
  | nil =>
    intro bs h1 h2
    cases bs with
    | nil => rfl
    | cons b bs => simp [leStr.go] at h2
  | cons a as ih =>
    intro bs h1 h2
    cases bs with
    | nil => simp [leStr.go] at h1
    | cons b bs =>
      simp only [leStr.go] at h1 h2
      rcases Nat.lt_trichotomy a.toNat b.toNat with hab | hab | hab
      · simp [hab, Nat.lt_asymm hab] at h2
      · have ha : a = b := Char.ext (UInt32.ext hab)
        subst ha
        simp only [lt_irrefl, if_false] at h1 h2
        rw [ih bs (by simpa using h1) (by simpa using h2)]
      · simp [hab, Nat.lt_asymm hab] at h1

theorem leStr_trans (a b c : String) :
    leStr a b = true → leStr b c = true → leStr a c = true :=
  leStr_go_trans a.toList b.toList c.toList

theorem leStr_total (a b : String) : (leStr a b || leStr b a) = true := by
  rw [Bool.or_eq_true]
  rcases leStr_go_total a.toList b.toList with h | h
  · exact Or.inl h
  · exact Or.inr h

theorem leStr_antisymm (a b : String) :
    leStr a b = true → leStr b a = true → a = b := by
  intro h1 h2
  have h := leStr_go_antisymm a.toList b.toList h1 h2
  cases a
  cases b
  exact congrArg String.mk (by simpa [String.toList] using h)

theorem mem_get_all_tags (df : List Tx) (s : String) :
    s ∈ get_all_tags df ↔
      ∃ t ∈ df, ∃ tg, t.tags = some tg ∧ s ∈ (pySplitComma tg).map pyStrip := by
  rw [get_all_tags, List.mem_mergeSort, List.mem_dedup, List.mem_flatMap]
  constructor
  · rintro ⟨x, hx, hs⟩
    rw [List.mem_filterMap] at hx
    obtain ⟨t, ht, htg⟩ := hx
    exact ⟨t, ht, x, htg, hs⟩
  · rintro ⟨t, ht, tg, htg, hs⟩
    exact ⟨tg, List.mem_filterMap.mpr ⟨t, ht, htg⟩, hs⟩

/-- Claim C5 counterexample: on a table whose tags fields are the present
strings "a, b", "b,c" and "", get_all_tags returns the four-element sorted
list with the empty tag included, not the claimed three-element set. -/
theorem c5_counterexample :
    get_all_tags
        [⟨⟨2024, 1, 1⟩, "Expense", "Other", 1, "x", some "a, b"⟩,
         ⟨⟨2024, 1, 2⟩, "Expense", "Other", 1, "x", some "b,c"⟩,
         ⟨⟨2024, 1, 3⟩, "Expense", "Other", 1, "x", some ""⟩] =
      ["", "a", "b", "c"] ∧
    (["", "a", "b", "c"] : List String) ≠ ["a", "b", "c"] := by
  constructor
  · rw [get_all_tags]
    have hD : ((([⟨⟨2024, 1, 1⟩, "Expense", "Other", 1, "x", some "a, b"⟩,
          ⟨⟨2024, 1, 2⟩, "Expense", "Other", 1, "x", some "b,c"⟩,
          ⟨⟨2024, 1, 3⟩, "Expense", "Other", 1, "x", some ""⟩] :
            List Tx).filterMap (fun t => t.tags)).flatMap
              (fun s => (pySplitComma s).map pyStrip)).dedup =
        ["a", "b", "c", ""] := by decide
    rw [hD]
    haveI : IsAntisymm String (fun a b => leStr a b = true) := ⟨leStr_antisymm⟩
    refine List.eq_of_perm_of_sorted
      ((List.mergeSort_perm _ _).trans (by decide))
      (List.sorted_mergeSort leStr_trans leStr_total _) (by decide)
  · decide

/-- Claim C5 (amended): get_all_tags splits every non-missing tags field on
commas and strips each piece, returning the sorted deduplicated list; a
present empty-string tags field contributes the empty tag (the code filters
on missingness via dropna, not on emptiness), so the reference example holds
when the empty field is the missing value, as a CSV load represents it. -/
theorem c5_theorem :
    get_all_tags
        [⟨⟨2024, 1, 1⟩, "Expense", "Other", 1, "x", some "a, b"⟩,
         ⟨⟨2024, 1, 2⟩, "Expense", "Other", 1, "x", some "b,c"⟩,
         ⟨⟨2024, 1, 3⟩, "Expense", "Other", 1, "x", none⟩] =
      ["a", "b", "c"] ∧
    (∀ (df : List Tx) (s : String),
      s ∈ get_all_tags df ↔
        ∃ t ∈ df, ∃ tg, t.tags = some tg ∧ s ∈ (pySplitComma tg).map pyStrip) ∧
    (∀ df : List Tx,
      (get_all_tags df).Pairwise (fun a b => leStr a b = true)) ∧
    (∀ df : List Tx, (get_all_tags df).Nodup) := by
  refine ⟨?_, mem_get_all_tags, ?_, ?_⟩
  · rw [get_all_tags]
    have hD : ((([⟨⟨2024, 1, 1⟩, "Expense", "Other", 1, "x", some "a, b"⟩,
          ⟨⟨2024, 1, 2⟩, "Expense", "Other", 1, "x", some "b,c"⟩,
          ⟨⟨2024, 1, 3⟩, "Expense", "Other", 1, "x", none⟩] :
            List Tx).filterMap (fun t => t.tags)).flatMap
              (fun s => (pySplitComma s).map pyStrip)).dedup =
        ["a", "b", "c"] := by decide
    rw [hD]
    haveI : IsAntisymm String (fun a b => leStr a b = true) := ⟨leStr_antisymm⟩
    refine List.eq_of_perm_of_sorted
      ((List.mergeSort_perm _ _).trans (by decide))
      (List.sorted_mergeSort leStr_trans leStr_total _) (by decide)
  · intro df
    exact List.sorted_mergeSort leStr_trans leStr_total _
  · intro df
    exact (List.mergeSort_perm _ leStr).nodup_iff.mpr (List.nodup_dedup _)

theorem scanQ_append (sep : Char) (b : List Char) :
    ∀ (a : List Char) (q : Bool), scanQ sep a q = true →
      scanQ sep b false = true → scanQ sep (a ++ b) q = true := by
  intro a
  induction a with
  | nil =>
    intro q ha hb
    have hq : q = false := by simpa [scanQ] using ha
    subst hq
    simpa using hb
  | cons c cs ih =>
    intro q ha hb
    simp only [scanQ, List.cons_append] at ha ⊢
    by_cases h1 : c = '"'
    · rw [if_pos h1] at ha ⊢
      exact ih _ ha hb
    · by_cases h2 : c = sep ∧ q = false
      · rw [if_neg h1, if_pos h2] at ha
        exact absurd ha (by simp)
      · rw [if_neg h1, if_neg h2] at ha ⊢
        exact ih _ ha hb

theorem splitQA_append (sep : Char) (rest : List Char) (hs : sep ≠ '"') :
    ∀ (g : List Char) (q : Bool), scanQ sep g q = true →
      splitQA sep (g ++ sep :: rest) q =
        (g, (splitQA sep rest false).1 :: (splitQA sep rest false).2) := by
  intro g
  induction g with
  | nil =>
    intro q hq
    have hqf : q = false := by simpa [scanQ] using hq
    subst hqf
    simp [splitQA, hs]
  | cons c cs ih =>
    intro q hq
    simp only [scanQ] at hq
    simp only [List.cons_append, splitQA, List.append_eq]
    by_cases h1 : c = '"'
    · rw [if_pos h1] at hq ⊢
      rw [ih _ hq]
      simp [h1]
    · by_cases h2 : c = sep ∧ q = false
      · rw [if_neg h1, if_pos h2] at hq
        exact absurd hq (by simp)
      · rw [if_neg h1, if_neg h2] at hq
        rw [if_neg h1, if_neg h2, ih _ hq]

theorem splitQA_noSep (sep : Char) :
    ∀ (g : List Char) (q : Bool), scanQ sep g q = true →
      splitQA sep g q = (g, []) := by
  intro g
  induction g with
  | nil =>
    intro q _
    rfl
  | cons c cs ih =>
    intro q hq
    simp only [scanQ] at hq
    simp only [splitQA]
    by_cases h1 : c = '"'
    · rw [if_pos h1] at hq ⊢
      rw [ih _ hq]
      simp [h1]
    · by_cases h2 : c = sep ∧ q = false
      · rw [if_neg h1, if_pos h2] at hq
        exact absurd hq (by simp)
      · rw [if_neg h1, if_neg h2] at hq
        rw [if_neg h1, if_neg h2, ih _ hq]

theorem scanQ_escape (sep : Char) (rest : List Char) :
    ∀ l : List Char, scanQ sep (escapeQ l ++ rest) true = scanQ sep rest true := by
  intro l
  induction l with
  | nil => rfl
  | cons c cs ih =>
    simp only [escapeQ]
    by_cases h : c = '"'
    · rw [if_pos h]
      show scanQ sep ('"' :: '"' :: (escapeQ cs ++ rest)) true = _
      simp only [scanQ, if_pos rfl]
      simpa using ih
    · rw [if_neg h]
      show scanQ sep (c :: (escapeQ cs ++ rest)) true = _
      simp only [scanQ, if_neg h]
      rw [if_neg (by simp)]
      exact ih

theorem scanQ_bare (sep : Char) :
    ∀ l : List Char, (∀ c ∈ l, c ≠ '"' ∧ c ≠ sep) →
      scanQ sep l false = true := by
  intro l
  induction l with
  | nil =>
    intro _
    rfl
  | cons c cs ih =>
    intro h
    have hc := h c (by simp)
    simp only [scanQ]
    rw [if_neg hc.1, if_neg (by simp [hc.2])]
    exact ih (fun x hx => h x (by simp [hx]))

theorem scanQ_printField (sep : Char) (f : String) (hs : sep ≠ '"')
    (hsep : sep = ',' ∨ sep = '\n' ∨ sep = '\r') :
    scanQ sep (printField f) false = true := by
  rw [printField]
  by_cases hq : needsQuote f
  · rw [if_pos hq]
    show scanQ sep ('"' :: (escapeQ f.toList ++ ['"'])) false = true
    have h1 : scanQ sep ('"' :: (escapeQ f.toList ++ ['"'])) false =
        scanQ sep (escapeQ f.toList ++ ['"']) true := by
      simp [scanQ]
    rw [h1, scanQ_escape]
    simp [scanQ, hs]
  · rw [if_neg hq]
    apply scanQ_bare
    intro c hc
    constructor
    · intro h
      apply hq
      rw [needsQuote, List.any_eq_true]
      exact ⟨c, hc, by simp [h]⟩
    · intro h
      apply hq
      rw [needsQuote, List.any_eq_true]
      refine ⟨c, hc, ?_⟩
      rcases hsep with rfl | rfl | rfl <;> simp [h]

theorem scanQ_printRecord (sep : Char) (hs : sep ≠ '"') (hne : sep ≠ ',')
    (hsep : sep = '\n' ∨ sep = '\r') :
    ∀ fields : List String, scanQ sep (printRecord fields) false = true := by
  intro fields
  induction fields with
  | nil => rfl
  | cons f fs ih =>
    cases fs with
    | nil =>
      exact scanQ_printField sep f hs (by rcases hsep with rfl | rfl <;> simp)
    | cons f2 fs2 =>
      show scanQ sep (printField f ++ ',' :: printRecord (f2 :: fs2)) false = true
      apply scanQ_append sep _ _ _
        (scanQ_printField sep f hs (by rcases hsep with rfl | rfl <;> simp))
      simp only [scanQ]
      rw [if_neg (by decide : ¬(',' : Char) = '"'),
        if_neg (fun h => hne h.1.symm)]
      exact ih

theorem splitTop_printRecord :
    ∀ (fs : List String) (f : String),
      splitTop ',' (printRecord (f :: fs)) = (f :: fs).map printField := by
  intro fs
  induction fs with
  | nil =>
    intro f
    rw [splitTop, printRecord,
      splitQA_noSep ',' (printField f) false
        (scanQ_printField ',' f (by decide) (Or.inl rfl))]
    simp
  | cons f2 fs2 ih =>
    intro f
    show splitTop ',' (printField f ++ ',' :: printRecord (f2 :: fs2)) = _
    rw [splitTop,
      splitQA_append ',' (printRecord (f2 :: fs2)) (by decide) (printField f)
        false (scanQ_printField ',' f (by decide) (Or.inl rfl))]
    have hr := ih f2
    rw [splitTop] at hr
    dsimp only
    rw [hr]
    simp

theorem splitTop_printCsv :
    ∀ records : List (List String),
      splitTop '\n' (printCsv records) = records.map printRecord ++ [[]] := by
  intro records
  induction records with
  | nil => rfl
  | cons r rs ih =>
    have hcat : printCsv (r :: rs) =
        printRecord r ++ '\n' :: printCsv rs := by
      simp [printCsv]
    rw [hcat, splitTop,
      splitQA_append '\n' (printCsv rs) (by decide) (printRecord r) false
        (scanQ_printRecord '\n' (by decide) (by decide) (Or.inl rfl) r)]
    have hr := ih
    rw [splitTop] at hr
    dsimp only
    rw [hr]
    simp

theorem unquoteBody_escape :
    ∀ l : List Char, unquoteBody (escapeQ l ++ ['"']) = l := by
  intro l
  induction l with
  | nil => rfl
  | cons c cs ih =>
    simp only [escapeQ]
    by_cases h : c = '"'
    · rw [if_pos h]
      show unquoteBody ('"' :: ('"' :: (escapeQ cs ++ ['"']))) = c :: cs
      subst h
      rw [unquoteBody.eq_def]
      simp [ih]
    · rw [if_neg h]
      show unquoteBody (c :: (escapeQ cs ++ ['"'])) = c :: cs
      rw [unquoteBody.eq_def]
      simp [h, ih]

theorem unquoteField_printField (f : String) :
    unquoteField (printField f) = f.toList := by
  rw [printField]
  by_cases hq : needsQuote f
  · rw [if_pos hq]
    show unquoteField ('"' :: (escapeQ f.toList ++ ['"'])) = f.toList
    simp only [unquoteField, if_pos rfl]
    exact unquoteBody_escape f.toList
  · rw [if_neg hq]
    cases hf : f.toList with
    | nil => rfl
    | cons c cs =>
      have hc : c ≠ '"' := by
        intro hcq
        apply hq
        rw [needsQuote, List.any_eq_true]
        exact ⟨c, by rw [hf]; simp, by simp [hcq]⟩
      simp only [unquoteField, if_neg hc]

theorem printRecord_ne_nil (f f2 : String) (fs : List String) :
    printRecord (f :: f2 :: fs) ≠ [] := by
  show printField f ++ ',' :: printRecord (f2 :: fs) ≠ []
  simp

theorem csvRecords_printCsv (records : List (List String))
    (h : ∀ r ∈ records, 2 ≤ r.length) :
    csvRecords (printCsv records) = records := by
  rw [csvRecords, splitTop_printCsv, List.filter_append]
  have h2 : List.filter (fun g => g ≠ []) [([] : List Char)] = [] := by simp
  have h1 : (records.map printRecord).filter (fun g => g ≠ []) =
      records.map printRecord := by
    rw [List.filter_eq_self]
    intro g hg
    rw [List.mem_map] at hg
    obtain ⟨r, hr, rfl⟩ := hg
    have hlen := h r hr
    cases r with
    | nil => simp at hlen
    | cons f t =>
      cases t with
      | nil => simp at hlen
      | cons f2 fs => simpa using printRecord_ne_nil f f2 fs
  rw [h1, h2, List.append_nil, List.map_map]
  have hid : ∀ r ∈ records,
      ((fun line => (splitTop ',' line).map fun f => (unquoteField f).asString) ∘
        printRecord) r = r := by
    intro r hr
    have hlen := h r hr
    cases r with
    | nil => simp at hlen
    | cons f t =>
      cases t with
      | nil => simp at hlen
      | cons f2 fs =>
        show ((splitTop ',' (printRecord (f :: f2 :: fs))).map
          fun x => (unquoteField x).asString) = f :: f2 :: fs
        rw [splitTop_printRecord, List.map_map]
        have hpt : ∀ x ∈ (f :: f2 :: fs),
            ((fun g => (unquoteField g).asString) ∘ printField) x = id x := by
          intro x _
          show (unquoteField (printField x)).asString = x
          rw [unquoteField_printField]
          rfl
        rw [List.map_congr_left hpt]
        exact List.map_id' _
  rw [List.map_congr_left hid]
  exact List.map_id' _

theorem digitVal_digitChar (d : Nat) (h : d < 10) : digitVal (digitChar d) = d := by
  interval_cases d <;> decide

theorem isDigit_digitChar (d : Nat) (h : d < 10) : (digitChar d).isDigit = true := by
  interval_cases d <;> decide

theorem printNat_ne_nil (n : Nat) : printNat n ≠ [] := by
  rw [printNat]
  by_cases h : n = 0
  · simp [h]
  · rw [if_neg h]
    simp [Nat.digits_ne_nil_iff_ne_zero, h]

theorem printNat_all_digits (n : Nat) :
    ∀ c ∈ printNat n, c.isDigit = true := by
  intro c hc
  rw [printNat] at hc
  by_cases h : n = 0
  · rw [if_pos h] at hc
    simp at hc
    subst hc
    decide
  · rw [if_neg h] at hc
    rw [List.mem_reverse, List.mem_map] at hc
    obtain ⟨d, hd, rfl⟩ := hc
    exact isDigit_digitChar d (Nat.digits_lt_base (by norm_num) hd)

theorem parseNatDigits_append_singleton (cs : List Char) (c : Char) :
    parseNatDigits (cs ++ [c]) = parseNatDigits cs * 10 + digitVal c := by
  rw [parseNatDigits, parseNatDigits, List.foldl_append]
  rfl

theorem parseNatDigits_printNat (n : Nat) : parseNatDigits (printNat n) = n := by
  rw [printNat]
  by_cases h : n = 0
  · simp [h, parseNatDigits, digitVal]
  · rw [if_neg h]
    have key : ∀ l : List Nat, (∀ d ∈ l, d < 10) →
        parseNatDigits ((l.map digitChar).reverse) = Nat.ofDigits 10 l := by
      intro l
      induction l with
      | nil =>
        intro _
        rfl
      | cons d t ih =>
        intro hd
        rw [List.map_cons, List.reverse_cons, parseNatDigits_append_singleton,
          ih (fun x hx => hd x (by simp [hx])), digitVal_digitChar d (hd d (by simp)),
          Nat.ofDigits_cons]
        omega
    rw [key (Nat.digits 10 n) (fun d hd => Nat.digits_lt_base (by norm_num) hd)]
    exact_mod_cast Nat.ofDigits_digits 10 n

theorem printNat_length_le (n e : Nat) (he : 1 ≤ e) (h : n < 10 ^ e) :
    (printNat n).length ≤ e := by
  rw [printNat]
  by_cases h0 : n = 0
  · simpa [h0] using he
  · rw [if_neg h0]
    simp only [List.length_reverse, List.length_map]
    rw [Nat.digits_len 10 n (by norm_num) h0]
    have := Nat.log_lt_of_lt_pow h0 h
    omega

theorem splitSign_digits (cs : List Char) (h : ∀ c ∈ cs, c.isDigit = true) :
    splitSign cs = (false, cs) := by
  cases cs with
  | nil => rfl
  | cons c r =>
    have hc := h c (by simp)
    have h1 : c ≠ '-' := by
      intro he
      subst he
      exact absurd hc (by decide)
    have h2 : c ≠ '+' := by
      intro he
      subst he
      exact absurd hc (by decide)
    rw [splitSign]
    simp [h1, h2]

theorem isIntLit_printInt (z : Int) : isIntLit (printInt z) = true := by
  rw [printInt]
  by_cases h : z < 0
  · rw [if_pos h, isIntLit, splitSign]
    simp only [if_pos rfl]
    rw [Bool.and_eq_true, List.all_eq_true]
    exact ⟨by simpa using printNat_ne_nil z.natAbs, printNat_all_digits z.natAbs⟩
  · rw [if_neg h, isIntLit, splitSign_digits _ (printNat_all_digits z.natAbs)]
    rw [Bool.and_eq_true, List.all_eq_true]
    exact ⟨by simpa using printNat_ne_nil z.natAbs, printNat_all_digits z.natAbs⟩

theorem intValOf_printInt (z : Int) : intValOf (printInt z) = z := by
  rw [printInt]
  by_cases h : z < 0
  · rw [if_pos h, intValOf, splitSign]
    simp only [if_pos rfl]
    simp [parseNatDigits_printNat]
    simp [abs_of_neg h]
  · rw [if_neg h, intValOf, splitSign_digits _ (printNat_all_digits z.natAbs)]
    simp [parseNatDigits_printNat]
    omega

theorem splitSign_cons_digit (c : Char) (cs : List Char) (h : c.isDigit = true) :
    splitSign (c :: cs) = (false, c :: cs) := by
  have h1 : c ≠ '-' := by
    intro he
    subst he
    exact absurd h (by decide)
  have h2 : c ≠ '+' := by
    intro he
    subst he
    exact absurd h (by decide)
  rw [splitSign]
  simp [h1, h2]

theorem splitDot (ip rest : List Char) (h : ∀ c ∈ ip, c.isDigit = true) :
    (ip ++ '.' :: rest).takeWhile (fun c => c ≠ '.') = ip ∧
    (ip ++ '.' :: rest).dropWhile (fun c => c ≠ '.') = '.' :: rest := by
  induction ip with
  | nil =>
    constructor <;> simp [List.takeWhile_cons, List.dropWhile_cons]
  | cons c cs ih =>
    have hc : c ≠ '.' := by
      intro he
      have := h c (by simp)
      rw [he] at this
      exact absurd this (by decide)
    obtain ⟨h1, h2⟩ := ih (fun x hx => h x (by simp [hx]))
    refine ⟨?_, ?_⟩
    · rw [List.cons_append, List.takeWhile_cons, if_pos (decide_eq_true hc), h1]
    · rw [List.cons_append, List.dropWhile_cons, if_pos (decide_eq_true hc), h2]

theorem parseNatDigits_replicate_zero (k : Nat) (cs : List Char) :
    parseNatDigits (List.replicate k '0' ++ cs) = parseNatDigits cs := by
  induction k with
  | zero => rfl
  | succ k ih =>
    rw [List.replicate_succ, List.cons_append]
    show parseNatDigits ('0' :: (List.replicate k '0' ++ cs)) = _
    rw [parseNatDigits, List.foldl_cons]
    show List.foldl _ 0 (List.replicate k '0' ++ cs) = _
    exact ih

theorem padFrac_all_digits (m : Int) (e : Nat) :
    ∀ c ∈ List.replicate (e - (printNat (m.natAbs % 10 ^ e)).length) '0' ++
      printNat (m.natAbs % 10 ^ e), c.isDigit = true := by
  intro c hc
  rw [List.mem_append] at hc
  rcases hc with hc | hc
  · rw [List.eq_of_mem_replicate hc]
    decide
  · exact printNat_all_digits _ c hc

theorem padFrac_length (m : Int) (e : Nat) (he : 1 ≤ e) :
    (List.replicate (e - (printNat (m.natAbs % 10 ^ e)).length) '0' ++
      printNat (m.natAbs % 10 ^ e)).length = e := by
  have hlt : m.natAbs % 10 ^ e < 10 ^ e := Nat.mod_lt _ (Nat.pos_pow_of_pos e (by norm_num))
  have hle := printNat_length_le (m.natAbs % 10 ^ e) e he hlt
  simp only [List.length_append, List.length_replicate]
  omega

theorem isFloatLit_of_parts (cs ip fp : List Char)
    (hsplit : (splitSign cs).2 = ip ++ '.' :: fp)
    (hip : ∀ c ∈ ip, c.isDigit = true) (hfp : ∀ c ∈ fp, c.isDigit = true)
    (hne : ip ≠ []) :
    isFloatLit cs = true := by
  simp only [isFloatLit, hsplit]
  obtain ⟨h1, h2⟩ := splitDot ip fp hip
  rw [h1, h2]
  simp [List.all_eq_true, hne]
  exact ⟨hip, hfp⟩

theorem floatValOf_of_parts (cs ip fp : List Char) (neg : Bool)
    (hsplit : splitSign cs = (neg, ip ++ '.' :: fp))
    (hip : ∀ c ∈ ip, c.isDigit = true) :
    floatValOf cs =
      ((if neg then
          -((parseNatDigits ip : Int) * 10 ^ fp.length + (parseNatDigits fp : Int))
        else
          ((parseNatDigits ip : Int) * 10 ^ fp.length + (parseNatDigits fp : Int))),
        fp.length) := by
  simp only [floatValOf, hsplit]
  obtain ⟨h1, h2⟩ := splitDot ip fp hip
  rw [h1, h2]
  simp

theorem splitSign_printFloat (m : Int) (e : Nat) :
    splitSign (printFloat m e) =
      (decide (m < 0), printNat (m.natAbs / 10 ^ e) ++ '.' ::
        (List.replicate (e - (printNat (m.natAbs % 10 ^ e)).length) '0' ++
          printNat (m.natAbs % 10 ^ e))) := by
  rw [printFloat]
  by_cases h : m < 0
  · rw [if_pos h]
    rw [List.singleton_append, splitSign.eq_def]
    simp [h]
  · rw [if_neg h]
    simp only [List.nil_append]
    cases hip : printNat (m.natAbs / 10 ^ e) with
    | nil => exact absurd hip (printNat_ne_nil _)
    | cons c0 cs0 =>
      have hd : c0.isDigit = true := by
        apply printNat_all_digits (m.natAbs / 10 ^ e)
        rw [hip]
        simp
      rw [List.cons_append, splitSign_cons_digit c0 _ hd]
      simp [h]

theorem isFloatLit_printFloat (m : Int) (e : Nat) (_he : 1 ≤ e) :
    isFloatLit (printFloat m e) = true := by
  apply isFloatLit_of_parts _ (printNat (m.natAbs / 10 ^ e))
    (List.replicate (e - (printNat (m.natAbs % 10 ^ e)).length) '0' ++
      printNat (m.natAbs % 10 ^ e))
  · rw [splitSign_printFloat]
  · exact printNat_all_digits _
  · exact padFrac_all_digits m e
  · exact printNat_ne_nil _

theorem floatValOf_printFloat (m : Int) (e : Nat) (he : 1 ≤ e) :
    floatValOf (printFloat m e) = (m, e) := by
  rw [floatValOf_of_parts (printFloat m e) (printNat (m.natAbs / 10 ^ e))
    (List.replicate (e - (printNat (m.natAbs % 10 ^ e)).length) '0' ++
      printNat (m.natAbs % 10 ^ e)) (decide (m < 0))
    (splitSign_printFloat m e) (printNat_all_digits _),
    padFrac_length m e he, parseNatDigits_replicate_zero,
    parseNatDigits_printNat, parseNatDigits_printNat]
  have h0 : m.natAbs / 10 ^ e * 10 ^ e + m.natAbs % 10 ^ e = m.natAbs := by
    rw [Nat.mul_comm (m.natAbs / 10 ^ e) (10 ^ e)]
    exact Nat.div_add_mod _ _
  have hval : ((m.natAbs / 10 ^ e : Nat) : Int) * 10 ^ e +
      ((m.natAbs % 10 ^ e : Nat) : Int) = (m.natAbs : Int) := by
    exact_mod_cast h0
  by_cases hm : m < 0
  · rw [if_pos (decide_eq_true hm), hval]
    simp only [Prod.mk.injEq]
    refine ⟨?_, trivial⟩
    simp [Int.natCast_natAbs, abs_of_neg hm]
  · rw [if_neg (by simp [hm]), hval]
    simp only [Prod.mk.injEq]
    exact ⟨Int.natAbs_of_nonneg (not_lt.mp hm), trivial⟩

theorem canonF_id (m : Int) (e : Nat) (he : 1 ≤ e)
    (hc : e = 1 ∨ ¬ m % 10 = 0) : canonF m e = (m, e) := by
  cases e with
  | zero => omega
  | succ e1 =>
    cases e1 with
    | zero => rfl
    | succ k =>
      rcases hc with h1 | h2
      · omega
      · rw [canonF, if_neg h2]

theorem naStrings_not_literals :
    naStrings.all (fun s =>
      !(isIntLit s.toList) && !(isFloatLit s.toList) && !(isBoolLit s)) = true := by
  decide

theorem mem_naStrings_of_isNaRaw (s : String) (h : isNaRaw s = true) :
    s ∈ naStrings := by
  rw [isNaRaw] at h
  exact List.mem_of_elem_eq_true h

theorem isNaRaw_true_of_ne_false (s : String) (h : ¬ isNaRaw s = false) :
    isNaRaw s = true := by
  cases hx : isNaRaw s
  · exact absurd hx h
  · rfl

theorem isNaRaw_eq_false_of_intLit (s : String) (h : isIntLit s.toList = true) :
    isNaRaw s = false := by
  by_contra hcon
  have hm := mem_naStrings_of_isNaRaw s (isNaRaw_true_of_ne_false s hcon)
  have hall := List.all_eq_true.mp naStrings_not_literals s hm
  simp only [Bool.and_eq_true, Bool.not_eq_true'] at hall
  rw [hall.1.1] at h
  exact Bool.false_ne_true h

theorem isNaRaw_eq_false_of_floatLit (s : String) (h : isFloatLit s.toList = true) :
    isNaRaw s = false := by
  by_contra hcon
  have hm := mem_naStrings_of_isNaRaw s (isNaRaw_true_of_ne_false s hcon)
  have hall := List.all_eq_true.mp naStrings_not_literals s hm
  simp only [Bool.and_eq_true, Bool.not_eq_true'] at hall
  rw [hall.1.2] at h
  exact Bool.false_ne_true h

theorem isNaRaw_eq_false_of_boolLit (s : String) (h : isBoolLit s = true) :
    isNaRaw s = false := by
  by_contra hcon
  have hm := mem_naStrings_of_isNaRaw s (isNaRaw_true_of_ne_false s hcon)
  have hall := List.all_eq_true.mp naStrings_not_literals s hm
  simp only [Bool.and_eq_true, Bool.not_eq_true'] at hall
  rw [hall.2] at h
  exact Bool.false_ne_true h

theorem boolLits_not_numeric :
    (trueLits ++ falseLits).all (fun s =>
      !(isIntLit s.toList) && !(isFloatLit s.toList)) = true := by
  decide

theorem isBoolLit_not_intLit (s : String) (h : isBoolLit s = true) :
    isIntLit s.toList = false := by
  have hm : s ∈ trueLits ++ falseLits := by
    rw [isBoolLit, Bool.or_eq_true] at h
    rw [List.mem_append]
    rcases h with h | h
    · exact Or.inl (List.mem_of_elem_eq_true h)
    · exact Or.inr (List.mem_of_elem_eq_true h)
  have hall := List.all_eq_true.mp boolLits_not_numeric s hm
  simp only [Bool.and_eq_true, Bool.not_eq_true'] at hall
  exact hall.1

theorem isBoolLit_not_floatLit (s : String) (h : isBoolLit s = true) :
    isFloatLit s.toList = false := by
  have hm : s ∈ trueLits ++ falseLits := by
    rw [isBoolLit, Bool.or_eq_true] at h
    rw [List.mem_append]
    rcases h with h | h
    · exact Or.inl (List.mem_of_elem_eq_true h)
    · exact Or.inr (List.mem_of_elem_eq_true h)
  have hall := List.all_eq_true.mp boolLits_not_numeric s hm
  simp only [Bool.and_eq_true, Bool.not_eq_true'] at hall
  exact hall.2

theorem printFloat_not_intLit (m : Int) (e : Nat) :
    isIntLit (printFloat m e) = false := by
  rw [isIntLit]
  rw [splitSign_printFloat]
  have hdot : ('.' : Char) ∈ printNat (m.natAbs / 10 ^ e) ++ '.' ::
      (List.replicate (e - (printNat (m.natAbs % 10 ^ e)).length) '0' ++
        printNat (m.natAbs % 10 ^ e)) := by
    simp
  have hall : (printNat (m.natAbs / 10 ^ e) ++ '.' ::
      (List.replicate (e - (printNat (m.natAbs % 10 ^ e)).length) '0' ++
        printNat (m.natAbs % 10 ^ e))).all Char.isDigit = false := by
    rw [List.all_eq_false]
    exact ⟨'.', hdot, by decide⟩
  simp [hall]

theorem mkCell_na (ty : CType) : mkCell ty "" = Cell.na := by
  cases ty <;> decide

theorem mkCell_int (z : Int) : mkCell CType.ints (Cell.int z).raw = Cell.int z := by
  have hna : isNaRaw (printInt z).asString = false :=
    isNaRaw_eq_false_of_intLit _ (isIntLit_printInt z)
  have hiv : intValOf ((printInt z).asString).toList = z := intValOf_printInt z
  simp only [Cell.raw, mkCell.eq_def, hna, Bool.false_eq_true, if_false, hiv]

theorem mkCell_float (m : Int) (e : Nat) (he : 1 ≤ e)
    (hc : e = 1 ∨ ¬ m % 10 = 0) :
    mkCell CType.floats (Cell.float m e).raw = Cell.float m e := by
  have hna : isNaRaw (printFloat m e).asString = false :=
    isNaRaw_eq_false_of_floatLit _ (isFloatLit_printFloat m e he)
  have hfl : isFloatLit ((printFloat m e).asString).toList = true :=
    isFloatLit_printFloat m e he
  have hfv : floatValOf ((printFloat m e).asString).toList = (m, e) :=
    floatValOf_printFloat m e he
  simp only [Cell.raw, mkCell.eq_def, hna, Bool.false_eq_true, if_false, hfl,
    if_true, hfv]
  simp [canonF_id m e he hc]

theorem mkCell_bool (b : Bool) :
    mkCell CType.bools (Cell.bool b).raw = Cell.bool b := by
  cases b <;> decide

theorem mkCell_str (s : String) (h : isNaRaw s = false) :
    mkCell CType.strs (Cell.str s).raw = Cell.str s := by
  simp only [Cell.raw, mkCell.eq_def, h, Bool.false_eq_true, if_false]

theorem raw_isBoolLit (b : Bool) : isBoolLit (Cell.bool b).raw = true := by
  cases b <;> decide

theorem raw_na : Cell.na.raw = "" := rfl

theorem colStrs_mem (col : List Cell) (s : String) (hs : s ∈ colStrs col) :
    Cell.str s ∈ col := by
  rw [colStrs, List.mem_filterMap] at hs
  obtain ⟨c2, hc2, he⟩ := hs
  cases c2 <;> simp at he
  · rwa [he] at hc2

theorem mkCell_inferCType_col (col : List Cell) (hv : validCol col = true)
    {c : Cell} (hc : c ∈ col) :
    mkCell (inferCType (col.map Cell.raw)) c.raw = c := by
  rw [validCol] at hv
  simp only [Bool.or_eq_true, Bool.and_eq_true, Bool.not_eq_true'] at hv
  have hraws_ne : col.map Cell.raw ≠ [] := by
    intro h
    rw [List.map_eq_nil_iff] at h
    rw [h] at hc
    exact List.not_mem_nil c hc
  rcases hv with ((hints | hfloats) | hbools) | hstrs
  · -- int64 column
    have hcint := List.all_eq_true.mp hints c hc
    cases c with
    | int z =>
      have hall : (col.map Cell.raw).all (fun s => isIntLit s.toList) = true := by
        rw [List.all_eq_true]
        intro r hr
        rw [List.mem_map] at hr
        obtain ⟨c2, hc2, rfl⟩ := hr
        have h2 := List.all_eq_true.mp hints c2 hc2
        cases c2 with
        | int z2 => exact isIntLit_printInt z2
        | na => simp [Cell.isInt] at h2
        | float m2 e2 => simp [Cell.isInt] at h2
        | bool b2 => simp [Cell.isInt] at h2
        | str s2 => simp [Cell.isInt] at h2
      have hty : inferCType (col.map Cell.raw) = CType.ints := by
        simp only [inferCType]
        rw [if_pos ⟨hraws_ne, hall⟩]
      rw [hty]
      exact mkCell_int z
    | na => simp [Cell.isInt] at hcint
    | float m e => simp [Cell.isInt] at hcint
    | bool b => simp [Cell.isInt] at hcint
    | str s => simp [Cell.isInt] at hcint
  · -- float64 column (or all missing)
    cases c with
    | na =>
      rw [raw_na]
      exact mkCell_na _
    | float m e =>
      have hcv := List.all_eq_true.mp hfloats _ hc
      simp only [Cell.isNa, validFloatCell, Bool.or_eq_true, Bool.and_eq_true,
        bne_iff_ne, ne_eq, Bool.or_eq_true, beq_iff_eq] at hcv
      rcases hcv with hfalse | ⟨he0, hc1⟩
      · exact absurd hfalse (by simp)
      have he : 1 ≤ e := by omega
      have hcpair : e = 1 ∨ ¬ m % 10 = 0 := by
        rcases hc1 with h | h
        · exact Or.inl h
        · exact Or.inr (by simpa using h)
      have hb1 : ¬(col.map Cell.raw ≠ [] ∧
          (col.map Cell.raw).all (fun s => isIntLit s.toList) = true) := by
        rintro ⟨-, hall⟩
        have h2 := List.all_eq_true.mp hall _ (List.mem_map_of_mem Cell.raw hc)
        have h3 : isIntLit (printFloat m e) = false := printFloat_not_intLit m e
        rw [show ((Cell.raw (Cell.float m e)).toList) = printFloat m e from rfl,
          h3] at h2
        exact Bool.false_ne_true h2
      have hmem2 : Cell.raw (Cell.float m e) ∈
          (col.map Cell.raw).filter (fun s => isNaRaw s = false) := by
        rw [List.mem_filter]
        refine ⟨List.mem_map_of_mem _ hc, ?_⟩
        exact decide_eq_true
          (isNaRaw_eq_false_of_floatLit _ (isFloatLit_printFloat m e he))
      have hb2 : ((col.map Cell.raw).filter (fun s => isNaRaw s = false)) ≠ [] ∧
          ((col.map Cell.raw).filter (fun s => isNaRaw s = false)).all
            (fun s => isIntLit s.toList || isFloatLit s.toList) = true := by
        refine ⟨List.ne_nil_of_mem hmem2, ?_⟩
        rw [List.all_eq_true]
        intro r hr
        rw [List.mem_filter] at hr
        obtain ⟨hrm, hrna⟩ := hr
        rw [List.mem_map] at hrm
        obtain ⟨c2, hc2, rfl⟩ := hrm
        have hv2 := List.all_eq_true.mp hfloats c2 hc2
        cases c2 with
        | na => exact absurd hrna (by decide)
        | float m2 e2 =>
          simp only [Cell.isNa, validFloatCell, Bool.or_eq_true,
            Bool.and_eq_true, bne_iff_ne, ne_eq] at hv2
          rcases hv2 with hfalse | ⟨he20, -⟩
          · exact absurd hfalse (by simp)
          have he2 : 1 ≤ e2 := by omega
          rw [Bool.or_eq_true]
          exact Or.inr (isFloatLit_printFloat m2 e2 he2)
        | int z2 => simp [Cell.isNa, validFloatCell] at hv2
        | bool b2 => simp [Cell.isNa, validFloatCell] at hv2
        | str s2 => simp [Cell.isNa, validFloatCell] at hv2
      have hty : inferCType (col.map Cell.raw) = CType.floats := by
        simp only [inferCType]
        rw [if_neg hb1, if_pos hb2]
      rw [hty]
      exact mkCell_float m e he hcpair
    | int z =>
      have hcv := List.all_eq_true.mp hfloats _ hc
      simp [Cell.isNa, validFloatCell] at hcv
    | bool b =>
      have hcv := List.all_eq_true.mp hfloats _ hc
      simp [Cell.isNa, validFloatCell] at hcv
    | str s =>
      have hcv := List.all_eq_true.mp hfloats _ hc
      simp [Cell.isNa, validFloatCell] at hcv
  · -- bool column (or all missing)
    cases c with
    | na =>
      rw [raw_na]
      exact mkCell_na _
    | bool b =>
      have hblit : isBoolLit (Cell.bool b).raw = true := raw_isBoolLit b
      have hmem2 : Cell.raw (Cell.bool b) ∈
          (col.map Cell.raw).filter (fun s => isNaRaw s = false) := by
        rw [List.mem_filter]
        refine ⟨List.mem_map_of_mem _ hc, ?_⟩
        exact decide_eq_true (isNaRaw_eq_false_of_boolLit _ hblit)
      have hb1 : ¬(col.map Cell.raw ≠ [] ∧
          (col.map Cell.raw).all (fun s => isIntLit s.toList) = true) := by
        rintro ⟨-, hall⟩
        have h2 := List.all_eq_true.mp hall _ (List.mem_map_of_mem Cell.raw hc)
        rw [isBoolLit_not_intLit _ hblit] at h2
        exact Bool.false_ne_true h2
      have hb2 : ¬(((col.map Cell.raw).filter (fun s => isNaRaw s = false)) ≠ [] ∧
          ((col.map Cell.raw).filter (fun s => isNaRaw s = false)).all
            (fun s => isIntLit s.toList || isFloatLit s.toList) = true) := by
        rintro ⟨-, hall⟩
        have h2 := List.all_eq_true.mp hall _ hmem2
        rw [Bool.or_eq_true] at h2
        rcases h2 with h2 | h2
        · rw [isBoolLit_not_intLit _ hblit] at h2
          exact Bool.false_ne_true h2
        · rw [isBoolLit_not_floatLit _ hblit] at h2
          exact Bool.false_ne_true h2
      have hb3 : ((col.map Cell.raw).filter (fun s => isNaRaw s = false)) ≠ [] ∧
          ((col.map Cell.raw).filter (fun s => isNaRaw s = false)).all
            isBoolLit = true := by
        refine ⟨List.ne_nil_of_mem hmem2, ?_⟩
        rw [List.all_eq_true]
        intro r hr
        rw [List.mem_filter] at hr
        obtain ⟨hrm, hrna⟩ := hr
        rw [List.mem_map] at hrm
        obtain ⟨c2, hc2, rfl⟩ := hrm
        have hv2 := List.all_eq_true.mp hbools c2 hc2
        cases c2 with
        | na => exact absurd hrna (by decide)
        | bool b2 => exact raw_isBoolLit b2
        | int z2 => simp [Cell.isNa, Cell.isBool] at hv2
        | float m2 e2 => simp [Cell.isNa, Cell.isBool] at hv2
        | str s2 => simp [Cell.isNa, Cell.isBool] at hv2
      have hty : inferCType (col.map Cell.raw) = CType.bools := by
        simp only [inferCType]
        rw [if_neg hb1, if_neg hb2, if_pos hb3]
      rw [hty]
      exact mkCell_bool b
    | int z =>
      have hcv := List.all_eq_true.mp hbools _ hc
      simp [Cell.isNa, Cell.isBool] at hcv
    | float m e =>
      have hcv := List.all_eq_true.mp hbools _ hc
      simp [Cell.isNa, Cell.isBool] at hcv
    | str s =>
      have hcv := List.all_eq_true.mp hbools _ hc
      simp [Cell.isNa, Cell.isBool] at hcv
  · -- string column
    obtain ⟨⟨hall, hnum⟩, hbool⟩ := hstrs
    obtain ⟨s0, hs0m, hs0⟩ := List.all_eq_false.mp hnum
    obtain ⟨s1, hs1m, hs1⟩ := List.all_eq_false.mp hbool
    have hs0cell := colStrs_mem col s0 hs0m
    have hs1cell := colStrs_mem col s1 hs1m
    have hs0na : isNaRaw s0 = false := by
      have h2 := List.all_eq_true.mp hall _ hs0cell
      simpa [Cell.isNa, validStrCell] using h2
    have hs1na : isNaRaw s1 = false := by
      have h2 := List.all_eq_true.mp hall _ hs1cell
      simpa [Cell.isNa, validStrCell] using h2
    rw [Bool.or_eq_true, not_or] at hs0
    have hs0raw : Cell.raw (Cell.str s0) = s0 := rfl
    have hs0mem : s0 ∈ col.map Cell.raw := by
      rw [← hs0raw]
      exact List.mem_map_of_mem _ hs0cell
    have hs1mem : s1 ∈ col.map Cell.raw := by
      rw [show s1 = Cell.raw (Cell.str s1) from rfl]
      exact List.mem_map_of_mem _ hs1cell
    have hs0nonNa : s0 ∈ (col.map Cell.raw).filter
        (fun s => isNaRaw s = false) := by
      rw [List.mem_filter]
      exact ⟨hs0mem, by simpa using hs0na⟩
    have hs1nonNa : s1 ∈ (col.map Cell.raw).filter
        (fun s => isNaRaw s = false) := by
      rw [List.mem_filter]
      exact ⟨hs1mem, by simpa using hs1na⟩
    have hb1 : ¬(col.map Cell.raw ≠ [] ∧
        (col.map Cell.raw).all (fun s => isIntLit s.toList) = true) := by
      rintro ⟨-, hall2⟩
      exact hs0.1 (List.all_eq_true.mp hall2 _ hs0mem)
    have hb2 : ¬(((col.map Cell.raw).filter (fun s => isNaRaw s = false)) ≠ [] ∧
        ((col.map Cell.raw).filter (fun s => isNaRaw s = false)).all
          (fun s => isIntLit s.toList || isFloatLit s.toList) = true) := by
      rintro ⟨-, hall2⟩
      have h2 := List.all_eq_true.mp hall2 _ hs0nonNa
      rw [Bool.or_eq_true] at h2
      rcases h2 with h2 | h2
      · exact hs0.1 h2
      · exact hs0.2 h2
    have hb3 : ¬(((col.map Cell.raw).filter (fun s => isNaRaw s = false)) ≠ [] ∧
        ((col.map Cell.raw).filter (fun s => isNaRaw s = false)).all
          isBoolLit = true) := by
      rintro ⟨-, hall2⟩
      have h2 := List.all_eq_true.mp hall2 _ hs1nonNa
      exact hs1 h2
    have hty : inferCType (col.map Cell.raw) = CType.strs := by
      simp only [inferCType]
      rw [if_neg hb1, if_neg hb2, if_neg hb3]
    rw [hty]
    cases c with
    | na =>
      rw [raw_na]
      exact mkCell_na _
    | str s =>
      have h2 := List.all_eq_true.mp hall _ hc
      simp only [Cell.isNa, validStrCell, Bool.or_eq_true,
        Bool.not_eq_true'] at h2
      rcases h2 with hfalse | hna
      · exact absurd hfalse (by simp)
      exact mkCell_str s hna
    | int z =>
      have h2 := List.all_eq_true.mp hall _ hc
      simp [Cell.isNa, validStrCell] at h2
    | float m e =>
      have h2 := List.all_eq_true.mp hall _ hc
      simp [Cell.isNa, validStrCell] at h2
    | bool b =>
      have h2 := List.all_eq_true.mp hall _ hc
      simp [Cell.isNa, validStrCell] at h2

theorem row_reconstruct (hdr : List String) (rows : List (List Cell))
    (hcols : ∀ j < hdr.length, validCol (getCol rows j) = true)
    (R : List Cell) (hR : R ∈ rows) (hRlen : R.length = hdr.length) :
    List.zipWith mkCell
      ((List.range hdr.length).map (fun j =>
        inferCType ((rows.map (fun r => r.map Cell.raw)).map
          (fun r => r.getD j ""))))
      (R.map Cell.raw) = R := by
  have hcolraw : ∀ j, (rows.map (fun r => r.map Cell.raw)).map
      (fun r => r.getD j "") = (getCol rows j).map Cell.raw := by
    intro j
    rw [getCol, List.map_map, List.map_map]
    apply List.map_congr_left
    intro r0 hr0
    show (r0.map Cell.raw).getD j "" = Cell.raw (r0.getD j Cell.na)
    exact List.getD_map r0 Cell.na Cell.raw
  apply List.ext_getElem
  · simp [hRlen]
  · intro j h1 h2
    rw [List.getElem_zipWith]
    have hjh : j < hdr.length := by
      simpa [hRlen] using h2
    have hjR : j < R.length := h2
    have hjr : j < ((List.range hdr.length).map (fun j =>
        inferCType ((rows.map (fun r => r.map Cell.raw)).map
          (fun r => r.getD j "")))).length := by
      simpa using hjh
    simp only [List.getElem_map, List.getElem_range]
    rw [hcolraw j]
    have hmem : R[j] ∈ getCol rows j := by
      rw [getCol]
      have : R.getD j Cell.na ∈ rows.map (fun r => r.getD j Cell.na) :=
        List.mem_map_of_mem _ hR
      rwa [List.getD_eq_getElem R Cell.na hjR] at this
    exact mkCell_inferCType_col (getCol rows j) (hcols j hjh) hmem

/-- Claim C9: serializing a loaded transactions table with export_to_csv and
parsing the bytes back as comma-delimited text with a header row reproduces
the table exactly: header, rows and column order. -/
theorem c9_theorem (df : PTable) (hh : df.header = transactionsHeader)
    (hv : validTable df = true) :
    read_csv (export_to_csv df) = df := by
  rw [validTable, Bool.and_eq_true] at hv
  obtain ⟨hrect, hcols⟩ := hv
  have hlen : ∀ r ∈ df.rows, r.length = df.header.length := by
    intro r hr
    have h2 := List.all_eq_true.mp hrect r hr
    simpa using h2
  have hcols2 : ∀ j < df.header.length, validCol (getCol df.rows j) = true := by
    intro j hj
    exact List.all_eq_true.mp hcols j (by simpa using List.mem_range.mpr hj)
  have hrecords : csvRecords ((printCsv (df.header ::
      df.rows.map (fun r => r.map Cell.raw))).asString).toList =
      df.header :: df.rows.map (fun r => r.map Cell.raw) := by
    show csvRecords (printCsv (df.header :: df.rows.map (fun r => r.map Cell.raw))) = _
    apply csvRecords_printCsv
    intro r hr
    rcases List.mem_cons.mp hr with rfl | hr2
    · rw [hh]
      decide
    · rw [List.mem_map] at hr2
      obtain ⟨r0, hr0, rfl⟩ := hr2
      rw [List.length_map, hlen r0 hr0, hh]
      decide
  rw [export_to_csv, read_csv, hrecords]
  dsimp only
  have hrows : (df.rows.map (fun r => r.map Cell.raw)).map
      (fun r => List.zipWith mkCell
        ((List.range df.header.length).map (fun j =>
          inferCType ((df.rows.map (fun r => r.map Cell.raw)).map
            (fun r => r.getD j "")))) r) = df.rows := by
    rw [List.map_map]
    have hpt : ∀ R ∈ df.rows, ((fun r => List.zipWith mkCell
        ((List.range df.header.length).map (fun j =>
          inferCType ((df.rows.map (fun r => r.map Cell.raw)).map
            (fun r => r.getD j "")))) r) ∘ (fun r => r.map Cell.raw)) R = R := by
      intro R hR
      exact row_reconstruct df.header df.rows hcols2 R hR (hlen R hR)
    rw [List.map_congr_left hpt]
    exact List.map_id' _
  rw [hrows]

theorem c9_witness :
    validTable
      { header := transactionsHeader
        rows := [[Cell.str "2024-03-01", Cell.str "Expense",
          Cell.str "Food & Dining", Cell.float 505 1,
          Cell.str "lunch, \"cafe\"", Cell.na]] } = true ∧
    read_csv (export_to_csv
      { header := transactionsHeader
        rows := [[Cell.str "2024-03-01", Cell.str "Expense",
          Cell.str "Food & Dining", Cell.float 505 1,
          Cell.str "lunch, \"cafe\"", Cell.na]] }) =
      { header := transactionsHeader
        rows := [[Cell.str "2024-03-01", Cell.str "Expense",
          Cell.str "Food & Dining", Cell.float 505 1,
          Cell.str "lunch, \"cafe\"", Cell.na]] } :=
  ⟨by decide, c9_theorem _ rfl (by decide)⟩
